import Mathlib

/-!
Verification development for the rt-evm runtime (FindoraNetwork/rt-evm).

Shallow embedding conventions:
* `U256` machine words are `Nat` values; arithmetic that saturates in the
  source (`saturating_mul`, `saturating_sub`, `checked_* ... unwrap_or(max)`)
  is made explicit with a cap at `2^256 - 1`.
* 20-byte addresses and 32-byte hashes are `Nat` values.
* External cryptography (keccak, secp256k1 recovery) and the Merkle-Patricia
  node encoding live in external crates; they enter the embedding as explicit
  function parameters, never as axioms.
* The Merkle-Patricia tries are content maps: the world-state trie maps an
  address to an `Account`, a storage trie maps a slot to a value.  Association
  lists with first-match lookup model the map structure.
-/

/-- `2^256`, one past the largest `U256` value. -/
def u256Limit : Nat := 2 ^ 256

/-- `U256::max_value()`. -/
def u256Max : Nat := u256Limit - 1

/-- `U256::saturating_mul` (also `checked_mul(..).unwrap_or(U256::max_value())`,
which agrees with it on `Nat` values). -/
def satMul (a b : Nat) : Nat := min (a * b) u256Max

/-- `U256::saturating_sub`; `Nat` subtraction already truncates at zero. -/
def satSub (a b : Nat) : Nat := a - b

/-- `U256::checked_add(..).unwrap_or(U256::max_value())`. -/
def satAdd (a b : Nat) : Nat := min (a + b) u256Max

/-- `NIL_DATA` / `NIL_HASH` from `model/src/types/primitive.rs`: the keccak256
hash of the empty byte string, `0xc5d2...a470`. -/
def nilHash : Nat :=
  0xc5d2460186f7233c927e7db2dcc703c0e500b653ca82273b7bfad8045d85a470

/-- `RLP_NULL` from `model/src/types/primitive.rs`: keccak256 of the RLP
encoding of null, `0x56e8...b421`. -/
def rlpNull : Nat :=
  0x56e81f171bcc55a6ff8345e692c0f86e5b48e01b996cadc001622fb5e363b421

/-- `MIN_TRANSACTION_GAS_LIMIT` (= `GAS_CALL_TRANSACTION` = 21000), listed in
the constants section of the design documents and used by the mempool
pre-check and the executor's invalid-nonce branch. -/
def minTransactionGasLimit : Nat := 21000

/-- `MAX_BLOCK_GAS_LIMIT` from `model/src/types/block.rs`. -/
def maxBlockGasLimit : Nat := 50000000

/-- `BASE_FEE_PER_GAS` from `model/src/types/block.rs`. -/
def baseFeePerGas : Nat := 0x539

/-- `Account` (nonce, balance, storage_root, code_hash), RLP-encoded into the
world-state trie; field shapes as constructed throughout
`executor/src/adapter/mod.rs` and `storage/src/lib.rs`. -/
structure Account where
  nonce : Nat
  balance : Nat
  storageRoot : Nat
  codeHash : Nat
deriving DecidableEq, Repr

/-- The default account produced by every reader when an address has no entry
in the world-state trie. -/
def defaultAccount : Account :=
  { nonce := 0, balance := 0, storageRoot := nilHash, codeHash := nilHash }

/-- First-match lookup in an association list (the map `get`). -/
def kvLookup {κ α : Type} [DecidableEq κ] : List (κ × α) → κ → Option α
  | [], _ => none
  | p :: t, k => if p.1 = k then some p.2 else kvLookup t k

/-- Map insert with replace-on-collision semantics (`BTreeMap::insert`,
`HashMap::insert`, MPT `insert`). -/
def kvSet {κ α : Type} [DecidableEq κ] : List (κ × α) → κ → α → List (κ × α)
  | [], k, v => [(k, v)]
  | p :: t, k, v => if p.1 = k then (k, v) :: t else p :: kvSet t k v

/-- Map removal (`remove`); drops the first entry with the key. -/
def kvErase {κ α : Type} [DecidableEq κ] : List (κ × α) → κ → List (κ × α)
  | [], _ => []
  | p :: t, k => if p.1 = k then t else p :: kvErase t k

theorem kvLookup_kvSet_self {κ α : Type} [DecidableEq κ]
    (l : List (κ × α)) (k : κ) (v : α) : kvLookup (kvSet l k v) k = some v := by
  induction l with
  | nil => simp [kvSet, kvLookup]
  | cons p t ih =>
    by_cases h : p.1 = k
    · simp [kvSet, h, kvLookup]
    · simp [kvSet, h, kvLookup, ih]

theorem kvLookup_kvSet_ne {κ α : Type} [DecidableEq κ]
    (l : List (κ × α)) (k k' : κ) (v : α) (h : k ≠ k') :
    kvLookup (kvSet l k v) k' = kvLookup l k' := by
  induction l with
  | nil => simp [kvSet, kvLookup, h]
  | cons p t ih =>
    by_cases hp : p.1 = k
    · simp [kvSet, hp, kvLookup, h]
    · simp [kvSet, hp, kvLookup, ih]

/-- External hash functions entering the embedding: the storage-trie root
computation (MPT commit), the world-state root computation, keccak of a byte
string, the create-address derivation `keccak(rlp([sender, nonce]))[12..]`,
and `ruc::crypto::trie_root` over a non-empty indexed input.  All live in
external crates (`trie`, `keccak-hasher`, `rlp`, `ruc`); the embedding
abstracts them as parameters. -/
structure HashModel where
  sroot : List (Nat × Nat) → Nat
  wroot : List (Nat × Account) → Nat
  keccak : List Nat → Nat
  codeAddr : Nat → Nat → Nat
  trieRaw : List (Nat × Nat) → Nat

/-- `evm::backend::Basic`. -/
structure Basic where
  balance : Nat
  nonce : Nat
deriving DecidableEq, Repr

namespace Adapter

/-- The state reachable through `RTEvmExecutorAdapter`: the world-state MPT
content, the per-address storage-trie contents held by the `MptStore`, the
two code maps of the storage layer (`codes_addr_to_hash` and `codes`), and
the execution context's mutable origin and gas price. -/
structure State where
  world : List (Nat × Account)
  tries : List (Nat × List (Nat × Nat))
  codesAddrToHash : List (Nat × Nat)
  codes : List (Nat × List Nat)
  origin : Nat
  gasPrice : Nat
deriving DecidableEq, Repr

/-- `RTEvmExecutorAdapter::get_account`: decode the entry at the address, or
return the all-default account when the trie has none. -/
def getAccount (s : State) (address : Nat) : Account :=
  match kvLookup s.world address with
  | some a => a
  | none => defaultAccount

/-- `RTEvmExecutorAdapter::save_account`: encode and insert at the address. -/
def saveAccount (s : State) (address : Nat) (a : Account) : State :=
  { s with world := kvSet s.world address a }

/-- One `Apply` item produced by EVM execution (`evm::backend::Apply`). -/
inductive ApplyItem where
  | modify (address : Nat) (basic : Basic) (code : Option (List Nat))
      (storage : List (Nat × Nat)) (resetStorage : Bool) : ApplyItem
  | delete (address : Nat) : ApplyItem
deriving DecidableEq, Repr

/-- `RTEvmExecutorAdapter::apply` (the inherent method, adapter/mod.rs
268-331): load the old account (default when absent), open the storage trie
(fresh on `reset_storage` or for a previously absent account, else restored at
the old storage root), apply the slot writes, commit, write code when its
keccak differs from the old code hash, write the new account back, and report
whether the result is empty — where the source tests
`balance == 0 && nonce == 0 && code_hash.is_zero()`. -/
def applyModify (hm : HashModel) (s : State) (address : Nat) (basic : Basic)
    (code : Option (List Nat)) (storage : List (Nat × Nat))
    (resetStorage : Bool) : Bool × State :=
  let old := kvLookup s.world address
  let oldAccount := old.getD defaultAccount
  let existing := old.isSome
  let trie0 :=
    if resetStorage then []
    else if existing then (kvLookup s.tries address).getD []
    else []
  let trie1 := storage.foldl (fun t kv => kvSet t kv.1 kv.2) trie0
  let acct0 : Account :=
    { nonce := basic.nonce, balance := basic.balance,
      codeHash := oldAccount.codeHash, storageRoot := hm.sroot trie1 }
  let withCode :=
    match code with
    | some c =>
      let h := hm.keccak c
      if h ≠ oldAccount.codeHash then
        ({ acct0 with codeHash := h },
         kvSet s.codesAddrToHash address h,
         kvSet s.codes h c)
      else (acct0, s.codesAddrToHash, s.codes)
    | none => (acct0, s.codesAddrToHash, s.codes)
  let newAccount := withCode.1
  let s1 : State :=
    { s with
      world := kvSet s.world address newAccount,
      tries := kvSet s.tries address trie1,
      codesAddrToHash := withCode.2.1,
      codes := withCode.2.2 }
  (decide (newAccount.balance = 0 ∧ newAccount.nonce = 0 ∧
      newAccount.codeHash = 0), s1)

/-- One step of `ApplyBackend::apply for RTEvmExecutorAdapter`
(adapter/mod.rs 196-228): `Modify` goes through `applyModify` and removes the
entry (and the storage backend) when the result is empty and `delete_empty`
holds; `Delete` removes both unconditionally. -/
def applyOne (hm : HashModel) (deleteEmpty : Bool) (s : State) :
    ApplyItem → State
  | .modify address basic code storage resetStorage =>
    let r := applyModify hm s address basic code storage resetStorage
    if r.1 && deleteEmpty then
      { r.2 with
        world := kvErase r.2.world address,
        tries := kvErase r.2.tries address }
    else r.2
  | .delete address =>
    { s with
      world := kvErase s.world address,
      tries := kvErase s.tries address }

/-- `ApplyBackend::apply`: fold the `Apply` sequence. -/
def applyBackend (hm : HashModel) (s : State) (values : List ApplyItem)
    (deleteEmpty : Bool) : State :=
  values.foldl (applyOne hm deleteEmpty) s

end Adapter

/-- `TinyMempool::get_account` (mempool/src/lib.rs 298-324) after the
world-state trie has been restored at the latest header's state root: decode
the entry, or return the default account. -/
def mempoolGetAccount (world : List (Nat × Account)) (address : Nat) : Account :=
  match kvLookup world address with
  | some a => a
  | none =>
    { nonce := 0, balance := 0, storageRoot := nilHash, codeHash := nilHash }

/-- `get_account_by_state` (storage/src/lib.rs 400-410). -/
def getAccountByState (world : List (Nat × Account)) (address : Nat) : Account :=
  match kvLookup world address with
  | some a => a
  | none =>
    { nonce := 0, balance := 0, storageRoot := nilHash, codeHash := nilHash }

/-- C9 -- For every address with no entry in the world-state trie, the three
public account readers (`TinyMempool::get_account`,
`RTEvmExecutorAdapter::get_account`, `get_account_by_state`) return the
default account with nonce 0, balance 0 and nil storage root and code hash,
rather than an error. -/
theorem account_lookup_default (world : List (Nat × Account))
    (tries : List (Nat × List (Nat × Nat))) (cah : List (Nat × Nat))
    (codes : List (Nat × List Nat)) (og gp address : Nat)
    (h : kvLookup world address = none) :
    mempoolGetAccount world address = defaultAccount ∧
    Adapter.getAccount ⟨world, tries, cah, codes, og, gp⟩ address =
      defaultAccount ∧
    getAccountByState world address = defaultAccount ∧
    defaultAccount.nonce = 0 ∧ defaultAccount.balance = 0 ∧
    defaultAccount.storageRoot = nilHash ∧ defaultAccount.codeHash = nilHash := by
  refine ⟨?_, ?_, ?_, rfl, rfl, rfl, rfl⟩ <;>
    simp [mempoolGetAccount, Adapter.getAccount, getAccountByState, h,
      defaultAccount]

/-- Witness for C9 at the empty world state and address 3. -/
theorem account_lookup_default_witness :
    kvLookup ([] : List (Nat × Account)) 3 = none ∧
    mempoolGetAccount [] 3 = defaultAccount := by
  refine ⟨rfl, ?_⟩
  exact (account_lookup_default [] [] [] [] 0 0 3 rfl).1

/-- C3 evaluation -- `ApplyBackend::apply` with `delete_empty = true` on a
`Modify` that leaves a default account (balance 0, nonce 0, no code): the
resulting account is empty in the sense of the data-model ("balance=0 ∧
nonce=0 ∧ code_hash=nil"), yet the entry is written back instead of removed,
because the source tests `code_hash.is_zero()` and the nil hash (keccak of
the empty string) is not the zero hash. -/
theorem applyModify_empty_check_bug :
    (Adapter.applyOne ⟨fun _ => nilHash, fun _ => 0, fun _ => 0, fun _ _ => 0,
        fun _ => 0⟩ true ⟨[], [], [], [], 0, 0⟩
        (.modify 1 ⟨0, 0⟩ none [] false)).world = [(1,
      { nonce := 0, balance := 0, storageRoot := nilHash,
        codeHash := nilHash })] ∧
    nilHash ≠ 0 := by
  constructor
  · rfl
  · decide

/-- Execution-height configuration read by the executor:
`CURRENT_BLOCK_HEIGHT` and `CHECK_POINT_CONFIG.fix_pay_fee_height`
(the checkpoint value is loaded from a runtime config file). -/
structure Cfg where
  fixPayFeeHeight : Nat
  currentHeight : Nat
deriving DecidableEq, Repr

/-- `TransactionAction`. -/
inductive TxAction where
  | call (address : Nat) : TxAction
  | create : TxAction
deriving DecidableEq, Repr

/-- The projections of a `SignedTransaction` that `RTEvmExecutor::evm_exec`
and `exec` read: the recovered sender, the body hash, and the unsigned body's
accessors.  (The full transaction structure, with signature components and
chain id, is embedded separately for the codec.) -/
structure TxStub where
  sender : Nat
  hash : Nat
  nonce : Nat
  gasPrice : Nat
  gasLimit : Nat
  action : TxAction
  value : Nat
  data : List Nat
deriving DecidableEq, Repr

/-- `evm::ExitReason`, restricted to the shape the runtime inspects:
`is_succeed`, and `ExitError::Other(msg)` used for the invalid-nonce
receipt. -/
inductive ExitReason where
  | succeed : ExitReason
  | revert : ExitReason
  | errorOther (msg : String) : ExitReason
  | fatal : ExitReason
deriving DecidableEq, Repr

/-- `ExitReason::is_succeed`. -/
def ExitReason.isSucceed : ExitReason → Bool
  | .succeed => true
  | _ => false

/-- `evm::Transfer` collected by the memory-stack wrapper. -/
structure Transfer where
  source : Nat
  target : Nat
  value : Nat
deriving DecidableEq, Repr

/-- `PayFee` from `executor/src/lib.rs`. -/
structure PayFee where
  source : Nat
  value : Nat
deriving DecidableEq, Repr

/-- `TxResp`. -/
structure TxResp where
  exitReason : ExitReason
  ret : List Nat
  remainGas : Nat
  gasUsed : Nat
  feeCost : Nat
  logs : List Nat
  codeAddress : Option Nat
  removed : Bool
deriving DecidableEq, Repr

/-- The outcome of one EVM dispatch (`transact_call` / `transact_create`
through the `StackExecutor` of the external `evm` crate): exit reason, return
data, remaining and used gas, the materialized `Apply` values, and the
transfers recorded by the stack-state wrapper.  The EVM itself is external to
this repository, so executions enter the embedding as a function from the
backend state to an outcome. -/
structure EvmOutcome where
  exit : ExitReason
  ret : List Nat
  remainedGas : Nat
  usedGas : Nat
  applies : List Adapter.ApplyItem
  transfers : List Transfer
deriving DecidableEq, Repr

/-- The sender account as saved just before the EVM call is dispatched
(`evm_exec` lines 555-559): the prepay gas `gas_price * gas_limit` is
deducted (saturating) only when the current height is below the
`fix_pay_fee_height` checkpoint. -/
def prepaidAccount (cfg : Cfg) (s : Adapter.State) (tx : TxStub) : Account :=
  let account := Adapter.getAccount s tx.sender
  if cfg.currentHeight < cfg.fixPayFeeHeight then
    { account with
      balance := satSub account.balance (satMul s.gasPrice tx.gasLimit) }
  else account

/-- The backend state right before the EVM call is dispatched: the prepaid
sender account has been persisted with `save_account`. -/
def prepayState (cfg : Cfg) (s : Adapter.State) (tx : TxStub) : Adapter.State :=
  Adapter.saveAccount s tx.sender (prepaidAccount cfg s tx)

/-- The backend state after the EVM call: on success the materialized `Apply`
values are applied with `delete_empty = true`; on failure nothing is. -/
def postExecState (hm : HashModel) (s1 : Adapter.State) (o : EvmOutcome) :
    Adapter.State :=
  if o.exit.isSucceed then Adapter.applyBackend hm s1 o.applies true else s1

/-- The `remain_gas` value of `evm_exec`: `remaining_gas * gas_price`
(`checked_mul` saturating to max) when the remaining gas is non-zero, zero
otherwise. -/
def remainGasValue (txGasPrice : Nat) (o : EvmOutcome) : Nat :=
  if o.remainedGas ≠ 0 then satMul o.remainedGas txGasPrice else 0

/-- The sender account as saved after the EVM call (`evm_exec` lines
612-629): reload, set nonce to `current_nonce + 1`, and credit the remaining
gas back to the balance only when remaining gas is non-zero and the current
height is below the `fix_pay_fee_height` checkpoint. -/
def settledAccount (cfg : Cfg) (s2 : Adapter.State)
    (sender currentNonce txGasPrice : Nat) (o : EvmOutcome) : Account :=
  let account := Adapter.getAccount s2 sender
  let base := { account with nonce := currentNonce + 1 }
  if o.remainedGas ≠ 0 ∧ cfg.currentHeight < cfg.fixPayFeeHeight then
    { base with
      balance := satAdd base.balance (satMul o.remainedGas txGasPrice) }
  else base

/-- `RTEvmExecutor::evm_exec` (executor/src/lib.rs 510-648).  Returns the
transaction response, the `PayFee` record, the collected transfers, and the
new backend state.  The nonce-mismatch branch synthesizes the invalid-nonce
receipt, charges `gas_price * MIN_TRANSACTION_GAS_LIMIT`, advances the nonce,
and saves only the sender account. -/
def evm_exec (cfg : Cfg) (hm : HashModel) (s : Adapter.State) (tx : TxStub)
    (runner : Adapter.State → EvmOutcome) :
    TxResp × PayFee × List Transfer × Adapter.State :=
  let sender := tx.sender
  let txGasPrice := s.gasPrice
  let prepayGas := satMul txGasPrice tx.gasLimit
  let account := Adapter.getAccount s sender
  let currentNonce := account.nonce
  if tx.nonce ≠ currentNonce then
    let feeCost := satMul txGasPrice minTransactionGasLimit
    let account1 :=
      { account with
        balance := satSub account.balance feeCost,
        nonce := currentNonce + 1 }
    (⟨.errorOther "invalid nonce", [], 0, minTransactionGasLimit, feeCost,
        [], none, false⟩,
     ⟨sender, feeCost⟩, [], Adapter.saveAccount s sender account1)
  else
    let s1 := prepayState cfg s tx
    let o := runner s1
    let s2 := postExecState hm s1 o
    let codeAddr :=
      if tx.action = .create ∧ o.exit.isSucceed then
        some (hm.codeAddr sender currentNonce)
      else none
    let s3 := Adapter.saveAccount s2 sender
      (settledAccount cfg s2 sender currentNonce txGasPrice o)
    (⟨o.exit, o.ret, o.remainedGas, o.usedGas, satMul txGasPrice o.usedGas,
        [], codeAddr, false⟩,
     ⟨sender, satSub prepayGas (remainGasValue txGasPrice o)⟩,
     o.transfers, s3)

theorem getAccount_saveAccount_self (s : Adapter.State) (a : Nat)
    (acct : Account) :
    Adapter.getAccount (Adapter.saveAccount s a acct) a = acct := by
  simp [Adapter.getAccount, Adapter.saveAccount, kvLookup_kvSet_self]

/-- C2 -- A transaction whose nonce differs from the sender's current nonce
is aborted with the synthetic invalid-nonce receipt:
`ExitError::Other("invalid nonce")`, `gas_used = MIN_TRANSACTION_GAS_LIMIT`
(21000), `gas_price * MIN_TRANSACTION_GAS_LIMIT` deducted from the balance
(saturating), nonce advanced by one, and the only state write is the sender
account. -/
theorem evm_exec_invalid_nonce (cfg : Cfg) (hm : HashModel)
    (s : Adapter.State) (tx : TxStub) (runner : Adapter.State → EvmOutcome)
    (h : tx.nonce ≠ (Adapter.getAccount s tx.sender).nonce) :
    evm_exec cfg hm s tx runner =
      (⟨.errorOther "invalid nonce", [], 0, minTransactionGasLimit,
          satMul s.gasPrice minTransactionGasLimit, [], none, false⟩,
       ⟨tx.sender, satMul s.gasPrice minTransactionGasLimit⟩, [],
       Adapter.saveAccount s tx.sender
         { Adapter.getAccount s tx.sender with
           balance := satSub (Adapter.getAccount s tx.sender).balance
             (satMul s.gasPrice minTransactionGasLimit),
           nonce := (Adapter.getAccount s tx.sender).nonce + 1 }) ∧
    minTransactionGasLimit = 21000 := by
  refine ⟨?_, rfl⟩
  simp only [evm_exec, if_pos h]

/-- Concrete sender state for the C2 witness: address 1 holds 100000 wei at
nonce 0 and the submitted transaction carries nonce 5. -/
def c2Account : Account :=
  { nonce := 0, balance := 100000, storageRoot := nilHash,
    codeHash := nilHash }

def c2State : Adapter.State := ⟨[(1, c2Account)], [], [], [], 0, 3⟩

def c2Tx : TxStub := ⟨1, 77, 5, 3, 21000, .call 2, 0, []⟩

def dummyHm : HashModel :=
  ⟨fun _ => nilHash, fun _ => 0, fun _ => 0, fun _ _ => 0, fun _ => 0⟩

def dummyOutcome : EvmOutcome := ⟨.succeed, [], 0, 0, [], []⟩

/-- Witness for C2: the invalid-nonce branch at a concrete state. -/
theorem evm_exec_invalid_nonce_witness :
    c2Tx.nonce ≠ (Adapter.getAccount c2State c2Tx.sender).nonce ∧
    (evm_exec ⟨0, 0⟩ dummyHm c2State c2Tx (fun _ => dummyOutcome)).1.gasUsed =
      21000 := by
  have h : c2Tx.nonce ≠ (Adapter.getAccount c2State c2Tx.sender).nonce := by
    decide
  refine ⟨h, ?_⟩
  rw [(evm_exec_invalid_nonce ⟨0, 0⟩ dummyHm c2State c2Tx
    (fun _ => dummyOutcome) h).1]
  rfl

/-- C1 (amended) -- For a transaction whose nonce matches, when the current
block height is below the `fix_pay_fee_height` checkpoint: before the EVM
call is dispatched the sender's balance is decreased by
`gas_price * gas_limit` (saturating) and the account is persisted; after the
call the sender's nonce is incremented, and when remaining gas is non-zero
`remaining_gas * gas_price` is credited back (saturating) onto the reloaded
balance. -/
theorem evm_exec_prepay_checkpoint (cfg : Cfg) (hm : HashModel)
    (s : Adapter.State) (tx : TxStub) (runner : Adapter.State → EvmOutcome)
    (h1 : tx.nonce = (Adapter.getAccount s tx.sender).nonce)
    (h2 : cfg.currentHeight < cfg.fixPayFeeHeight) :
    (Adapter.getAccount (prepayState cfg s tx) tx.sender).balance =
      satSub (Adapter.getAccount s tx.sender).balance
        (satMul s.gasPrice tx.gasLimit) ∧
    kvLookup (prepayState cfg s tx).world tx.sender =
      some (prepaidAccount cfg s tx) ∧
    (Adapter.getAccount (evm_exec cfg hm s tx runner).2.2.2 tx.sender).nonce =
      (Adapter.getAccount s tx.sender).nonce + 1 ∧
    ((runner (prepayState cfg s tx)).remainedGas ≠ 0 →
      (Adapter.getAccount (evm_exec cfg hm s tx runner).2.2.2
          tx.sender).balance =
        satAdd
          (Adapter.getAccount
            (postExecState hm (prepayState cfg s tx)
              (runner (prepayState cfg s tx))) tx.sender).balance
          (satMul (runner (prepayState cfg s tx)).remainedGas s.gasPrice)) := by
  have hmatch : ¬ tx.nonce ≠ (Adapter.getAccount s tx.sender).nonce := by
    simpa using h1
  refine ⟨?_, ?_, ?_, ?_⟩
  · rw [prepayState, getAccount_saveAccount_self, prepaidAccount]
    simp [h2]
  · simp [prepayState, Adapter.saveAccount, kvLookup_kvSet_self]
  · simp only [evm_exec, if_neg hmatch]
    rw [getAccount_saveAccount_self, settledAccount]
    by_cases hrg : (runner (prepayState cfg s tx)).remainedGas ≠ 0 ∧
        cfg.currentHeight < cfg.fixPayFeeHeight
    · simp [hrg, ← h1]
    · simp [hrg, ← h1]
  · intro hr
    simp only [evm_exec, if_neg hmatch]
    rw [getAccount_saveAccount_self, settledAccount]
    simp [hr, h2]

def c1Cfg : Cfg := ⟨10, 3⟩

def c1State : Adapter.State := ⟨[(1, c2Account)], [], [], [], 0, 2⟩

def c1Tx : TxStub := ⟨1, 88, 0, 2, 21000, .call 2, 0, []⟩

def c1Outcome : EvmOutcome := ⟨.succeed, [], 1000, 20000, [], []⟩

/-- Witness for C1 at a concrete pre-checkpoint state: prepay 2·21000 is
taken before dispatch and the remaining 1000 gas is credited back. -/
theorem evm_exec_prepay_checkpoint_witness :
    c1Tx.nonce = (Adapter.getAccount c1State c1Tx.sender).nonce ∧
    c1Cfg.currentHeight < c1Cfg.fixPayFeeHeight ∧
    (Adapter.getAccount (prepayState c1Cfg c1State c1Tx) c1Tx.sender).balance =
      satSub (Adapter.getAccount c1State c1Tx.sender).balance
        (satMul c1State.gasPrice c1Tx.gasLimit) := by
  have h1 : c1Tx.nonce = (Adapter.getAccount c1State c1Tx.sender).nonce := by
    decide
  have h2 : c1Cfg.currentHeight < c1Cfg.fixPayFeeHeight := by decide
  exact ⟨h1, h2,
    (evm_exec_prepay_checkpoint c1Cfg dummyHm c1State c1Tx
      (fun _ => c1Outcome) h1 h2).1⟩

def c1CexCfg : Cfg := ⟨0, 7⟩

def c1CexAccount : Account :=
  { nonce := 0, balance := 50000, storageRoot := nilHash,
    codeHash := nilHash }

def c1CexState : Adapter.State := ⟨[(1, c1CexAccount)], [], [], [], 0, 1⟩

def c1CexTx : TxStub := ⟨1, 99, 0, 1, 21000, .call 2, 0, []⟩

/-- C1 counterexample -- At block height 7 with `fix_pay_fee_height = 0`
(checkpoint passed), a matching-nonce transaction with gas price 1 and gas
limit 21000 reaches the EVM dispatch with the sender balance still 50000:
no prepay deduction happens, contradicting the unconditional claim. -/
theorem evm_exec_prepay_claim_cex :
    c1CexTx.nonce = (Adapter.getAccount c1CexState c1CexTx.sender).nonce ∧
    (Adapter.getAccount (prepayState c1CexCfg c1CexState c1CexTx)
        c1CexTx.sender).balance = 50000 ∧
    satSub (Adapter.getAccount c1CexState c1CexTx.sender).balance
        (satMul c1CexState.gasPrice c1CexTx.gasLimit) = 29000 ∧
    (50000 : Nat) ≠ 29000 := by
  refine ⟨by decide, ?_, by decide, by decide⟩
  rw [prepayState, getAccount_saveAccount_self, prepaidAccount]
  norm_num [c1CexCfg, c1CexState, c1CexTx, c1CexAccount, Adapter.getAccount,
    kvLookup]

/-- `ExecResp`. -/
structure ExecResp where
  stateRoot : Nat
  transactionRoot : Nat
  receiptRoot : Nat
  gasUsed : Nat
  feeUsed : Nat
  txsResp : List TxResp
deriving DecidableEq, Repr

/-- `trie_root` (executor/src/utils.rs 68-78): the nil hash for an empty
input, otherwise the external `ruc::crypto::trie_root`. -/
def trieRoot (f : List (Nat × Nat) → Nat) (input : List (Nat × Nat)) : Nat :=
  if input.isEmpty then nilHash else f input

/-- `trie_root_indexed` (executor/src/utils.rs 80-94): pairs each element
with its big-endian `u32` index (indices are injectively represented by the
`Nat` position here). -/
def trieRootIndexed (f : List (Nat × Nat) → Nat) (input : List Nat) : Nat :=
  if input.isEmpty then nilHash else trieRoot f input.enum

/-- `trie_root_txs`. -/
def trieRootTxs (f : List (Nat × Nat) → Nat) (txs : List TxStub) : Nat :=
  trieRootIndexed f (txs.map TxStub.hash)

/-- Accumulator of the per-transaction loop inside `Executor::exec`. -/
structure ExecAcc where
  s : Adapter.State
  gas : Nat
  fee : Nat
  txHashes : List Nat
  receiptHashes : List Nat
  res : List TxResp
  payFees : List PayFee
  transfers : List Transfer

/-- One iteration of the pre-checkpoint loop of `exec` (lines 197-219):
set gas price and origin from the transaction, run `evm_exec`, collect the
`PayFee` and transfers for post-loop settlement, and accumulate gas, fee and
the transaction/receipt hashes. -/
def execStepOld (cfg : Cfg) (hm : HashModel)
    (runner : Adapter.State → TxStub → EvmOutcome) (acc : ExecAcc)
    (tx : TxStub) : ExecAcc :=
  let sIn := { acc.s with gasPrice := tx.gasPrice, origin := tx.sender }
  let r := evm_exec cfg hm sIn tx (fun st => runner st tx)
  { s := r.2.2.2,
    gas := acc.gas + r.1.gasUsed,
    fee := satAdd acc.fee r.1.feeCost,
    txHashes := acc.txHashes ++ [tx.hash],
    receiptHashes := acc.receiptHashes ++ [hm.keccak r.1.ret],
    res := acc.res ++ [r.1],
    payFees := acc.payFees ++ [r.2.1],
    transfers := acc.transfers ++ r.2.2.1 }

/-- One iteration of the post-checkpoint loop of `exec` (lines 250-296):
run `evm_exec` and, when the fee contract address is configured, settle the
recorded transfers and then the fee through the system contract before
committing.  The system-contract executions are external EVM code and enter
as the `valueSettle` / `feeSettle` parameters. -/
def execStepNew (cfg : Cfg) (hm : HashModel)
    (runner : Adapter.State → TxStub → EvmOutcome)
    (valueSettle : Adapter.State → Transfer → Adapter.State)
    (feeSettle : Adapter.State → PayFee → Adapter.State)
    (constantAddr : Option Nat) (acc : ExecAcc) (tx : TxStub) : ExecAcc :=
  let sIn := { acc.s with gasPrice := tx.gasPrice, origin := tx.sender }
  let r := evm_exec cfg hm sIn tx (fun st => runner st tx)
  let sSettled :=
    match constantAddr with
    | some _ => feeSettle (r.2.2.1.foldl valueSettle r.2.2.2) r.2.1
    | none => r.2.2.2
  { s := sSettled,
    gas := acc.gas + r.1.gasUsed,
    fee := satAdd acc.fee r.1.feeCost,
    txHashes := acc.txHashes ++ [tx.hash],
    receiptHashes := acc.receiptHashes ++ [hm.keccak r.1.ret],
    res := acc.res ++ [r.1],
    payFees := acc.payFees ++ [r.2.1],
    transfers := acc.transfers }

/-- `RTEvmExecutor::exec` (executor/src/lib.rs 126-316) with no system
contracts: run all transactions in order under the regime selected by the
`fix_pay_fee_height` checkpoint (with post-loop fee settlement in the old
regime when the fee-contract address is configured), then return the new
state root, the indexed transaction root over the body hashes, and the
indexed receipt root over the keccaks of the return data. -/
def execTxs (cfg : Cfg) (hm : HashModel) (s0 : Adapter.State)
    (txs : List TxStub) (runner : Adapter.State → TxStub → EvmOutcome)
    (valueSettle : Adapter.State → Transfer → Adapter.State)
    (feeSettle : Adapter.State → PayFee → Adapter.State)
    (constantAddr : Option Nat) : ExecResp × Adapter.State :=
  let acc0 : ExecAcc := ⟨s0, 0, 0, [], [], [], [], []⟩
  let accF :=
    if cfg.currentHeight < cfg.fixPayFeeHeight then
      let acc1 := txs.foldl (execStepOld cfg hm runner) acc0
      match constantAddr with
      | some _ =>
        { acc1 with
          s := acc1.payFees.foldl feeSettle
            (acc1.transfers.foldl valueSettle acc1.s) }
      | none => acc1
    else
      txs.foldl (execStepNew cfg hm runner valueSettle feeSettle constantAddr)
        acc0
  (⟨hm.wroot accF.s.world,
    trieRootIndexed hm.trieRaw accF.txHashes,
    trieRootIndexed hm.trieRaw accF.receiptHashes,
    accF.gas, accF.fee, accF.res⟩, accF.s)

/-- `Header` (model/src/types/block.rs). -/
structure Header where
  prevHash : Nat
  proposer : Nat
  stateRoot : Nat
  transactionsRoot : Nat
  receiptsRoot : Nat
  logBloom : Nat
  difficulty : Nat
  timestamp : Nat
  number : Nat
  gasUsed : Nat
  gasLimit : Nat
  extraData : List Nat
  mixedHash : Option Nat
  hnonce : Nat
  baseFeePerGasF : Nat
  chainId : Nat
deriving DecidableEq, Repr

/-- `Proposal` (model/src/types/block.rs). -/
structure Proposal where
  prevHash : Nat
  proposer : Nat
  transactionsRoot : Nat
  timestamp : Nat
  number : Nat
  gasLimit : Nat
  extraData : List Nat
  mixedHash : Option Nat
  baseFeePerGasF : Nat
  chainId : Nat
  txHashes : List Nat
deriving DecidableEq, Repr

/-- `Block`. -/
structure BlockM where
  header : Header
  txHashes : List Nat
deriving DecidableEq, Repr

/-- `Block::new` (model/src/types/block.rs 100-129): the final header takes
the execution results (state root, receipts root, gas used) from the
`ExecResp` and everything else from the proposal; the log bloom is computed
over the RLP-encoded per-transaction blooms by external code and enters as a
parameter. -/
def blockNew (p : Proposal) (resp : ExecResp) (logBloomVal : Nat) : BlockM :=
  { header :=
    { prevHash := p.prevHash, proposer := p.proposer,
      stateRoot := resp.stateRoot, transactionsRoot := p.transactionsRoot,
      receiptsRoot := resp.receiptRoot, logBloom := logBloomVal,
      difficulty := 1, timestamp := p.timestamp, number := p.number,
      gasUsed := resp.gasUsed, gasLimit := p.gasLimit,
      extraData := p.extraData, mixedHash := p.mixedHash, hnonce := 0,
      baseFeePerGasF := p.baseFeePerGasF, chainId := p.chainId },
    txHashes := p.txHashes }

/-- `Block::genesis` (model/src/types/block.rs 135-159): both the
transactions root and the receipts root are `RLP_NULL`. -/
def blockGenesis (ts chainId : Nat) : BlockM :=
  { header :=
    { prevHash := 0, proposer := 0, stateRoot := 0,
      transactionsRoot := rlpNull, receiptsRoot := rlpNull, logBloom := 0,
      difficulty := 1, timestamp := ts, number := 0, gasUsed := 0,
      gasLimit := maxBlockGasLimit, extraData := [], mixedHash := none,
      hnonce := 0, baseFeePerGasF := baseFeePerGas, chainId := chainId },
    txHashes := [] }

/-- The block-producer fields of `BlockMgmt` used by proposal generation. -/
structure BlockMgmtM where
  proposer : Nat
  prevBlockHash : Nat
  prevStateRoot : Nat
  blockNumber : Nat
  blockTimestamp : Nat
  chainId : Nat
deriving DecidableEq, Repr

/-- `BlockMgmt::generate_proposal` (blockmgmt/src/lib.rs 129-145). -/
def generateProposal (f : List (Nat × Nat) → Nat) (m : BlockMgmtM)
    (txs : List TxStub) : Proposal :=
  { prevHash := m.prevBlockHash, proposer := m.proposer,
    transactionsRoot := trieRootTxs f txs, timestamp := m.blockTimestamp,
    number := m.blockNumber, gasLimit := maxBlockGasLimit, extraData := [],
    mixedHash := none, baseFeePerGasF := baseFeePerGas, chainId := m.chainId,
    txHashes := txs.map TxStub.hash }

/-- C10 -- `trie_root_indexed` of an empty input is the `NIL_HASH` constant;
consequently a block produced from zero transactions carries
`transactions_root = receipts_root = NIL_HASH`, while the genesis header
built by `Block::genesis` uses the (different) `RLP_NULL` roots. -/
theorem trie_root_empty_nil (f : List (Nat × Nat) → Nat) (cfg : Cfg)
    (hm : HashModel) (s0 : Adapter.State)
    (runner : Adapter.State → TxStub → EvmOutcome)
    (valueSettle : Adapter.State → Transfer → Adapter.State)
    (feeSettle : Adapter.State → PayFee → Adapter.State)
    (constantAddr : Option Nat) (m : BlockMgmtM) (lb ts cid : Nat) :
    trieRootIndexed f ([] : List Nat) = nilHash ∧
    (blockNew (generateProposal f m [])
        (execTxs cfg hm s0 [] runner valueSettle feeSettle constantAddr).1
        lb).header.transactionsRoot = nilHash ∧
    (blockNew (generateProposal f m [])
        (execTxs cfg hm s0 [] runner valueSettle feeSettle constantAddr).1
        lb).header.receiptsRoot = nilHash ∧
    (blockGenesis ts cid).header.transactionsRoot = rlpNull ∧
    (blockGenesis ts cid).header.receiptsRoot = rlpNull ∧
    nilHash ≠ rlpNull := by
  have hroots :
      (execTxs cfg hm s0 [] runner valueSettle feeSettle
        constantAddr).1.receiptRoot = nilHash := by
    by_cases hreg : cfg.currentHeight < cfg.fixPayFeeHeight
    · cases constantAddr <;>
        simp [execTxs, hreg, trieRootIndexed]
    · simp [execTxs, hreg, trieRootIndexed]
  refine ⟨by simp [trieRootIndexed], ?_, ?_, rfl, rfl, by decide⟩
  · simp [blockNew, generateProposal, trieRootTxs, trieRootIndexed]
  · simpa [blockNew] using hroots

/-- The genesis distribution fold of `EvmRuntime::create` (src/lib.rs
96-104): the first occurrence of an address is inserted as-is
(`entry(..).or_insert(*td)`), and a later occurrence is added
(`saturating_add`) only when its amount differs from the accumulated
amount. -/
def genesisFoldStep (acc : List (Nat × Nat)) (td : Nat × Nat) :
    List (Nat × Nat) :=
  match kvLookup acc td.1 with
  | none => kvSet acc td.1 td.2
  | some cur => if td.2 ≠ cur then kvSet acc td.1 (satAdd cur td.2) else acc

/-- The per-address amounts accumulated by `EvmRuntime::create` from the
configured token distributions. -/
def genesisDistributions (tds : List (Nat × Nat)) : List (Nat × Nat) :=
  tds.foldl genesisFoldStep []

/-- The genesis world state built by `EvmRuntime::create`: each accumulated
`(address, amount)` is applied through the executor adapter's `apply` with
`basic = { balance: amount, nonce: 0 }`, no code, no storage writes and
`reset_storage = true`, starting from the empty world state. -/
def evmRuntimeCreate (hm : HashModel) (tds : List (Nat × Nat)) :
    Adapter.State :=
  (genesisDistributions tds).foldl
    (fun s td => (Adapter.applyModify hm s td.1 ⟨td.2, 0⟩ none [] true).2)
    ⟨[], [], [], [], 0, 0⟩

/-- C7 evaluation -- the genesis distribution `[(1, 100), (1, 100)]` leaves
address 1 with balance 100, not the 200 the per-address summation requires:
the `td.amount != hdr.amount` guard (meant to avoid double-counting the
`or_insert`ed first entry) also skips genuine duplicates with an equal
amount.  With differing amounts the fold does sum (the spec's scenario
`[(1,100),(2,50),(1,25)]` gives 125 and 50). -/
theorem genesis_duplicate_equal_amounts_bug :
    kvLookup (genesisDistributions [(1, 100), (1, 100)]) 1 = some 100 ∧
    (Adapter.getAccount (evmRuntimeCreate dummyHm [(1, 100), (1, 100)])
        1).balance = 100 ∧
    (100 : Nat) ≠ 100 + 100 ∧
    kvLookup (genesisDistributions [(1, 100), (2, 50), (1, 25)]) 1 =
      some 125 ∧
    kvLookup (genesisDistributions [(1, 100), (2, 50), (1, 25)]) 2 =
      some 50 := by
  refine ⟨?_, ?_, by decide, ?_, ?_⟩ <;> rfl

/-- `u64::MAX`; the pre-check rejects a gas price at or above this value. -/
def u64MaxVal : Nat := 2 ^ 64 - 1

namespace Mempool

/-- `TinyMempoolCfg`. -/
structure Cfg where
  capacity : Nat
  txLifetimeInSecs : Nat
  txGasCap : Nat
deriving DecidableEq, Repr

/-- The read-only collaborators of the pre-check: the account state at the
latest block header's state root, and the persisted-transaction lookup
(`storage.get_tx_by_hash(..).is_some()`). -/
structure Env where
  latestAccount : Nat → Account
  persistedTx : Nat → Bool

/-- The externally-computed validity checks of a transaction: body-hash
verification (`UnverifiedTransaction::check_hash`, keccak over the canonical
encoding) and signature recovery (`SignedTransaction::try_from`, secp256k1
public-key recovery); both rest on external cryptography. -/
structure CryptoModel where
  hashOk : TxStub → Bool
  recoverTx : TxStub → Option TxStub

/-- `TinyMempool` state: the index-keyed transaction map (`txs`), the
lifetime slots (`tx_lifetime_fields`), the broadcast queue, and the
per-sender pending counter `address_pending_cnter`, flattened to a map keyed
by `(sender, tx hash)` holding the index. -/
structure State where
  txs : List (Nat × TxStub)
  txLifetimeFields : List (Nat × Nat)
  broadcastQueue : List TxStub
  addressPendingCnter : List ((Nat × Nat) × Nat)
deriving DecidableEq, Repr

/-- The freshly created mempool. -/
def memInit : State := ⟨[], [], [], []⟩

/-- `TinyMempool::tx_pending_cnt`: the per-sender entry count, or the size of
the transaction map when no address is given. -/
def txPendingCnt (s : State) (addr : Option Nat) : Nat :=
  match addr with
  | some a => (s.addressPendingCnter.filter (fun e => e.1.1 = a)).length
  | none => s.txs.length

/-- `TinyMempool::tx_pre_check` (mempool/src/lib.rs 246-296), in source
order: positive gas price below `u64::MAX`; gas limit within
`[MIN_TRANSACTION_GAS_LIMIT, gas_cap]`; body-hash check; signature recovery
compared against the claimed sender unless the caller already verified it;
account nonce at most the transaction nonce; balance covering
`gas_price * MIN_TRANSACTION_GAS_LIMIT`; and no identical persisted
transaction. -/
def txPreCheck (cm : CryptoModel) (cfg : Cfg) (env : Env) (tx : TxStub)
    (signatureChecked : Bool) : Except String Unit :=
  if tx.gasPrice = 0 then .error "The gas price is zero"
  else if u64MaxVal ≤ tx.gasPrice then
    .error "The gas price exceeds the limitation"
  else if tx.gasLimit < minTransactionGasLimit then
    .error "The gas limit less than the minimum"
  else if cfg.txGasCap < tx.gasLimit then
    .error "The gas limit exceeds the gas capacity"
  else if ¬ cm.hashOk tx then .error "Hash check failed"
  else if ¬ signatureChecked ∧ cm.recoverTx tx ≠ some tx then
    .error "Signature verify failed"
  else if tx.nonce < (env.latestAccount tx.sender).nonce then
    .error "Invalid nonce"
  else if (env.latestAccount tx.sender).balance <
      satMul tx.gasPrice minTransactionGasLimit then
    .error "Insufficient balance to cover possible gas"
  else if env.persistedTx tx.hash then
    .error "Historical transaction detected"
  else .ok ()

/-- `TinyMempool::tx_insert` (mempool/src/lib.rs 147-182): deny when the
total pending count exceeds the capacity, deny a `(sender, hash)` already
cached, run the pre-check, then push to the broadcast queue and record the
transaction in the counter, the lifetime map and the transaction map under a
fresh descending index (`idx` here; `now` is the wall clock). -/
def txInsert (cm : CryptoModel) (cfg : Cfg) (env : Env) (now idx : Nat)
    (sigChecked : Bool) (s : State) (tx : TxStub) : Except String State :=
  if cfg.capacity < s.txs.length then .error "Mempool is full"
  else if (kvLookup s.addressPendingCnter (tx.sender, tx.hash)).isSome then
    .error "Already cached in mempool"
  else
    match txPreCheck cm cfg env tx sigChecked with
    | .error e => .error e
    | .ok _ =>
      .ok { txs := kvSet s.txs idx tx,
            txLifetimeFields :=
              kvSet s.txLifetimeFields (now % cfg.txLifetimeInSecs) idx,
            broadcastQueue := s.broadcastQueue ++ [tx],
            addressPendingCnter :=
              kvSet s.addressPendingCnter (tx.sender, tx.hash) idx }

/-- `TinyMempool::tx_cleanup` (mempool/src/lib.rs 233-243): for each
confirmed transaction, remove its `(sender, hash)` entry from the pending
counter and, when one was present, the transaction at the recorded index. -/
def txCleanup (s : State) (toDel : List TxStub) : State :=
  toDel.foldl
    (fun s tx =>
      match kvLookup s.addressPendingCnter (tx.sender, tx.hash) with
      | some idx =>
        { s with
          addressPendingCnter :=
            kvErase s.addressPendingCnter (tx.sender, tx.hash),
          txs := kvErase s.txs idx }
      | none => s)
    s

/-- `BTreeMap::pop_last` on the discard part: the entry with the greatest
key. -/
def popLastKey (l : List (Nat × Nat)) : Option (Nat × Nat) :=
  l.foldl
    (fun acc p =>
      match acc with
      | none => some p
      | some q => if q.1 ≤ p.1 then some p else some q)
    none

/-- One cycle of the background lifetime cleaner (mempool/src/lib.rs
98-139) at discard guard `tsGuard`: split the lifetime map at the guard,
take the greatest index of the discarded part, drop every transaction with
an index at or above it, and remove the dropped transactions from the
pending counter. -/
def txEvict (s : State) (tsGuard : Nat) : State :=
  let toKeep := s.txLifetimeFields.filter (fun e => tsGuard ≤ e.1)
  let toDiscard := s.txLifetimeFields.filter (fun e => e.1 < tsGuard)
  match popLastKey toDiscard with
  | none => { s with txLifetimeFields := toKeep }
  | some q =>
    let toDel := s.txs.filter (fun p => q.2 ≤ p.1)
    { txs := s.txs.filter (fun p => p.1 < q.2),
      txLifetimeFields := toKeep,
      broadcastQueue := s.broadcastQueue,
      addressPendingCnter :=
        toDel.foldl (fun c p => kvErase c (p.2.sender, p.2.hash))
          s.addressPendingCnter }

/-- The mempool transition relation generated by a successful `tx_insert`
(at a fresh index, as guaranteed by the global descending `TX_INDEXER`),
`tx_cleanup`, and a lifetime-eviction cycle. -/
inductive Step (cm : CryptoModel) (cfg : Cfg) (env : Env) :
    State → State → Prop where
  | insert {s : State} (tx : TxStub) (now idx : Nat) (sigChecked : Bool)
      {s' : State} (hfresh : kvLookup s.txs idx = none)
      (h : txInsert cm cfg env now idx sigChecked s tx = .ok s') :
      Step cm cfg env s s'
  | cleanup {s : State} (toDel : List TxStub) :
      Step cm cfg env s (txCleanup s toDel)
  | evict {s : State} (tsGuard : Nat) :
      Step cm cfg env s (txEvict s tsGuard)

/-- States reachable from the fresh mempool. -/
inductive Reach (cm : CryptoModel) (cfg : Cfg) (env : Env) : State → Prop where
  | init : Reach cm cfg env memInit
  | step (s s' : State) : Reach cm cfg env s → Step cm cfg env s s' →
      Reach cm cfg env s'

end Mempool

/-- C5 (amended) -- `tx_insert` can succeed only when the total pending
count is at most the capacity; whenever it strictly exceeds the capacity the
call returns the "Mempool is full" error before touching any state. -/
theorem tx_insert_capacity (cm : Mempool.CryptoModel) (cfg : Mempool.Cfg)
    (env : Mempool.Env) (now idx : Nat) (sigChecked : Bool)
    (s : Mempool.State) (tx : TxStub) :
    (cfg.capacity < s.txs.length →
      Mempool.txInsert cm cfg env now idx sigChecked s tx =
        .error "Mempool is full") ∧
    (∀ s', Mempool.txInsert cm cfg env now idx sigChecked s tx =
        Except.ok s' → s.txs.length ≤ cfg.capacity) := by
  constructor
  · intro h
    simp [Mempool.txInsert, h]
  · intro s' h
    by_contra hc
    simp only [Mempool.txInsert, if_pos (Nat.lt_of_not_le hc)] at h
    exact Except.noConfusion h

def c5Cm : Mempool.CryptoModel := ⟨fun _ => true, fun t => some t⟩

def c5Account : Account :=
  { nonce := 0, balance := 1000000000, storageRoot := nilHash,
    codeHash := nilHash }

def c5Env : Mempool.Env := ⟨fun _ => c5Account, fun _ => false⟩

def c5Cfg : Mempool.Cfg := ⟨0, 600, 50000000⟩

def c5Tx : TxStub := ⟨1, 11, 0, 1, 21000, .call 2, 0, []⟩

def c5FullState : Mempool.State := ⟨[(100, c5Tx)], [(0, 100)], [c5Tx],
  [((1, 11), 100)]⟩

/-- Witness for C5 (amended): with capacity 0 and one pending transaction,
insertion is refused. -/
theorem tx_insert_capacity_witness :
    c5Cfg.capacity < c5FullState.txs.length ∧
    Mempool.txInsert c5Cm c5Cfg c5Env 7 99 false c5FullState c5Tx =
      .error "Mempool is full" :=
  ⟨by decide,
   (tx_insert_capacity c5Cm c5Cfg c5Env 7 99 false c5FullState c5Tx).1
     (by decide)⟩

/-- `Result::is_ok`. -/
def exceptIsOk {α : Type} : Except String α → Bool
  | .ok _ => true
  | .error _ => false

/-- C5 counterexample -- With capacity 0 and an empty mempool the pending
count (0) is not strictly less than the capacity, yet `tx_insert` succeeds:
the source rejects only when `tx_pending_cnt(None) > capacity`, so a state
with `pending = capacity` still accepts. -/
theorem tx_insert_capacity_claim_cex :
    c5Cfg.capacity ≤ Mempool.memInit.txs.length ∧
    exceptIsOk
      (Mempool.txInsert c5Cm c5Cfg c5Env 7 100 false Mempool.memInit c5Tx) =
      true := by
  exact ⟨Nat.le_refl 0, rfl⟩

/-- The collaborators of `BlockMgmt::verify_proposal`: the manager's chain
id, the wall clock `ts!()`, the stored-header lookup, and the header hash
(keccak of the encoded proposal form, external). -/
structure VerifyEnv where
  chainId : Nat
  now : Nat
  getHeader : Nat → Option Header
  headerHash : Header → Nat

/-- `BlockMgmt::verify_proposal` (blockmgmt/src/lib.rs 155-200), `true`
meaning acceptance: reject when `number < 1`, on chain-id mismatch, when the
proposal timestamp lies in the future, when the stored header at
`number - 1` is missing or its hash differs from `prev_hash`, when the
transactions root does not recompute from the hash list, on a length
mismatch, and per position on a hash mismatch or a failing mempool pre-check
— the pre-check is invoked with `signature_checked = false`. -/
def verifyProposal (cm : Mempool.CryptoModel) (cfg : Mempool.Cfg)
    (menv : Mempool.Env) (venv : VerifyEnv) (f : List (Nat × Nat) → Nat)
    (p : Proposal) (txs : List TxStub) : Bool :=
  if p.number < 1 then false
  else if venv.chainId ≠ p.chainId then false
  else if venv.now < p.timestamp then false
  else
    match venv.getHeader (p.number - 1) with
    | none => false
    | some h =>
      if p.prevHash ≠ venv.headerHash h then false
      else if trieRootIndexed f p.txHashes ≠ p.transactionsRoot then false
      else if txs.length ≠ p.txHashes.length then false
      else
        (txs.zip p.txHashes).all fun pr =>
          pr.1.hash == pr.2 &&
            exceptIsOk (Mempool.txPreCheck cm cfg menv pr.1 false)

/-- C4 (amended) -- `verify_proposal(p, txs)` rejects exactly when:
`p.number < 1`; the chain id differs; the timestamp exceeds the current
time; no stored header at `p.number - 1` has hash `p.prev_hash`; the
transactions root does not recompute from `p.tx_hashes`; the lengths differ;
or some position carries a mismatched hash or a transaction failing the
mempool pre-check, which is always performed with signature re-verification
(`signature_checked = false`), even for transactions the caller already
verified. -/
theorem verify_proposal_reject_iff (cm : Mempool.CryptoModel)
    (cfg : Mempool.Cfg) (menv : Mempool.Env) (venv : VerifyEnv)
    (f : List (Nat × Nat) → Nat) (p : Proposal) (txs : List TxStub) :
    verifyProposal cm cfg menv venv f p txs = false ↔
      (p.number < 1 ∨ venv.chainId ≠ p.chainId ∨ venv.now < p.timestamp ∨
       (¬ ∃ h, venv.getHeader (p.number - 1) = some h ∧
          venv.headerHash h = p.prevHash) ∨
       trieRootIndexed f p.txHashes ≠ p.transactionsRoot ∨
       txs.length ≠ p.txHashes.length ∨
       ∃ pr ∈ txs.zip p.txHashes, pr.1.hash ≠ pr.2 ∨
         Mempool.txPreCheck cm cfg menv pr.1 false ≠ .ok ()) := by
  unfold verifyProposal
  by_cases h1 : p.number < 1
  · simp [h1]
  by_cases h2 : venv.chainId ≠ p.chainId
  · simp [h1, h2]
  by_cases h3 : venv.now < p.timestamp
  · simp [h1, h2, h3]
  rcases hh : venv.getHeader (p.number - 1) with _ | hdr
  · simp [h1, h2, h3, hh]
  by_cases h4 : p.prevHash ≠ venv.headerHash hdr
  · simp only [if_neg h1, if_neg h2, if_neg h3, hh, if_pos h4]
    constructor
    · intro _
      refine Or.inr (Or.inr (Or.inr (Or.inl ?_)))
      rintro ⟨h', hh', heq⟩
      cases hh'
      exact h4 heq.symm
    · intro _
      trivial
  by_cases h5 : trieRootIndexed f p.txHashes ≠ p.transactionsRoot
  · simp only [if_neg h1, if_neg h2, if_neg h3, hh, if_neg h4, if_pos h5]
    simp [h5]
  by_cases h6 : txs.length ≠ p.txHashes.length
  · simp only [if_neg h1, if_neg h2, if_neg h3, hh, if_neg h4, if_neg h5,
      if_pos h6]
    simp [h6]
  · simp only [if_neg h1, if_neg h2, if_neg h3, hh, if_neg h4, if_neg h5,
      if_neg h6]
    push_neg at h4
    have hhdr : ∃ h', some hdr = some h' ∧
        venv.headerHash h' = p.prevHash := ⟨hdr, rfl, h4.symm⟩
    rw [List.all_eq_false]
    constructor
    · rintro ⟨pr, hmem, hq⟩
      refine Or.inr (Or.inr (Or.inr (Or.inr (Or.inr (Or.inr
        ⟨pr, hmem, ?_⟩)))))
      by_contra hno
      push_neg at hno
      apply hq
      simp [hno.1, hno.2, exceptIsOk]
    · intro hor
      rcases hor with h | h | h | h | h | h | ⟨pr, hmem, hbad⟩
      · exact absurd h h1
      · exact absurd h h2
      · exact absurd h h3
      · exact absurd hhdr h
      · exact absurd h h5
      · exact absurd h h6
      · refine ⟨pr, hmem, ?_⟩
        intro hq
        rw [Bool.and_eq_true] at hq
        rcases hbad with hb | hb
        · exact hb (by simpa using hq.1)
        · apply hb
          rcases he : Mempool.txPreCheck cm cfg menv pr.1 false with a | u
          · rw [he] at hq
            exact absurd hq.2 (by simp [exceptIsOk])
          · cases u
            rfl

def c4Cm : Mempool.CryptoModel := ⟨fun _ => true, fun _ => none⟩

def c4Hdr : Header :=
  { prevHash := 0, proposer := 0, stateRoot := 0, transactionsRoot := 0,
    receiptsRoot := 0, logBloom := 0, difficulty := 1, timestamp := 0,
    number := 0, gasUsed := 0, gasLimit := 0, extraData := [],
    mixedHash := none, hnonce := 0, baseFeePerGasF := 0, chainId := 5 }

def c4Venv : VerifyEnv :=
  ⟨5, 1000, fun n => if n = 0 then some c4Hdr else none, fun _ => 77⟩

def c4F : List (Nat × Nat) → Nat := fun _ => 42

def c4Tx : TxStub := ⟨1, 11, 0, 1, 21000, .call 2, 0, []⟩

def c4P : Proposal :=
  { prevHash := 77, proposer := 0, transactionsRoot := 42, timestamp := 500,
    number := 1, gasLimit := maxBlockGasLimit, extraData := [],
    mixedHash := none, baseFeePerGasF := baseFeePerGas, chainId := 5,
    txHashes := [11] }

/-- C4 counterexample -- A proposal satisfying none of the claim's rejection
conditions (in particular its single transaction passes the pre-check
without signature re-verification, `signature_checked = true`) is still
rejected by `verify_proposal`, because the source invokes
`tx_pre_check(tx, false)` and the signature recovery fails. -/
theorem verify_proposal_sig_recheck_cex :
    verifyProposal c4Cm c5Cfg c5Env c4Venv c4F c4P [c4Tx] = false ∧
    ¬ c4P.number < 1 ∧
    c4Venv.chainId = c4P.chainId ∧
    ¬ c4Venv.now < c4P.timestamp ∧
    (∃ h, c4Venv.getHeader (c4P.number - 1) = some h ∧
      c4Venv.headerHash h = c4P.prevHash) ∧
    trieRootIndexed c4F c4P.txHashes = c4P.transactionsRoot ∧
    [c4Tx].length = c4P.txHashes.length ∧
    (∀ pr ∈ [c4Tx].zip c4P.txHashes, pr.1.hash = pr.2 ∧
      Mempool.txPreCheck c4Cm c5Cfg c5Env pr.1 true = .ok ()) := by
  refine ⟨?_, by decide, rfl, by decide, ⟨c4Hdr, rfl, rfl⟩, rfl, rfl, ?_⟩
  · rfl
  · intro pr hpr
    rcases List.mem_singleton.mp hpr with h
    subst h
    exact ⟨rfl, rfl⟩

/-- Keys of an association list are pairwise distinct. -/
def keysNodup {κ α : Type} [DecidableEq κ] (l : List (κ × α)) : Prop :=
  (l.map Prod.fst).Nodup

theorem kv_mem_of_lookup {κ α : Type} [DecidableEq κ] {l : List (κ × α)}
    {k : κ} {v : α} (h : kvLookup l k = some v) : (k, v) ∈ l := by
  induction l with
  | nil => exact absurd h (by simp [kvLookup])
  | cons p t ih =>
    by_cases hp : p.1 = k
    · rw [kvLookup, if_pos hp] at h
      injection h with h
      have hpv : (k, v) = p := by rw [← hp, ← h]
      exact List.mem_cons.mpr (Or.inl hpv)
    · rw [kvLookup, if_neg hp] at h
      exact List.mem_cons_of_mem _ (ih h)

theorem kv_lookup_none_iff {κ α : Type} [DecidableEq κ] (l : List (κ × α))
    (k : κ) : kvLookup l k = none ↔ k ∉ l.map Prod.fst := by
  induction l with
  | nil => simp [kvLookup]
  | cons p t ih =>
    by_cases hp : p.1 = k
    · simp [kvLookup, hp]
    · simp [kvLookup, hp, ih, Ne.symm hp]

theorem kvSet_eq_append {κ α : Type} [DecidableEq κ] {l : List (κ × α)}
    {k : κ} (v : α) (h : kvLookup l k = none) :
    kvSet l k v = l ++ [(k, v)] := by
  induction l with
  | nil => simp [kvSet]
  | cons p t ih =>
    rw [kvLookup] at h
    by_cases hp : p.1 = k
    · rw [if_pos hp] at h
      cases h
    · rw [if_neg hp] at h
      simp [kvSet, hp, ih h]

theorem kvErase_sublist {κ α : Type} [DecidableEq κ] (l : List (κ × α))
    (k : κ) : (kvErase l k).Sublist l := by
  induction l with
  | nil => simp [kvErase]
  | cons p t ih =>
    by_cases hp : p.1 = k
    · rw [kvErase, if_pos hp]
      exact List.sublist_cons_self p t
    · rw [kvErase, if_neg hp]
      exact ih.cons₂ p

theorem keysNodup_kvErase {κ α : Type} [DecidableEq κ] {l : List (κ × α)}
    (k : κ) (h : keysNodup l) : keysNodup (kvErase l k) :=
  ((kvErase_sublist l k).map Prod.fst).nodup h

theorem mem_kvErase_of_ne {κ α : Type} [DecidableEq κ] {l : List (κ × α)}
    {e : κ × α} {k : κ} (hm : e ∈ l) (hk : e.1 ≠ k) : e ∈ kvErase l k := by
  induction l with
  | nil => cases hm
  | cons p t ih =>
    by_cases hp : p.1 = k
    · rw [kvErase, if_pos hp]
      rcases List.mem_cons.mp hm with he | he
      · subst he
        exact absurd hp hk
      · exact he
    · rw [kvErase, if_neg hp]
      rcases List.mem_cons.mp hm with he | he
      · exact he ▸ List.mem_cons_self _ _
      · exact List.mem_cons_of_mem _ (ih he)

theorem mem_kvErase_iff {κ α : Type} [DecidableEq κ] {l : List (κ × α)}
    {e : κ × α} {k : κ} (h : keysNodup l) :
    e ∈ kvErase l k ↔ e ∈ l ∧ e.1 ≠ k := by
  constructor
  · intro hm
    refine ⟨(kvErase_sublist l k).mem hm, ?_⟩
    induction l with
    | nil => cases hm
    | cons p t ih =>
      by_cases hp : p.1 = k
      · rw [kvErase, if_pos hp] at hm
        intro hek
        have : e.1 ∈ t.map Prod.fst := List.mem_map_of_mem _ hm
        rw [hek, ← hp] at this
        exact (List.nodup_cons.mp h).1 this
      · rw [kvErase, if_neg hp] at hm
        rcases List.mem_cons.mp hm with he | he
        · subst he
          exact hp
        · exact ih (List.nodup_cons.mp h).2 he
  · rintro ⟨hm, hk⟩
    exact mem_kvErase_of_ne hm hk

theorem kv_pair_unique {κ α : Type} [DecidableEq κ] {l : List (κ × α)}
    {k : κ} {v v' : α} (h : keysNodup l) (h1 : (k, v) ∈ l)
    (h2 : (k, v') ∈ l) : v = v' := by
  induction l with
  | nil => cases h1
  | cons p t ih =>
    rcases List.mem_cons.mp h1 with he1 | he1 <;>
      rcases List.mem_cons.mp h2 with he2 | he2
    · injection he1.trans he2.symm with hfst hsnd
    · exfalso
      have hk : k ∈ t.map Prod.fst := List.mem_map_of_mem Prod.fst he2
      have hp1 : p.1 = k := by rw [← he1]
      rw [← hp1] at hk
      exact (List.nodup_cons.mp h).1 hk
    · exfalso
      have hk : k ∈ t.map Prod.fst := List.mem_map_of_mem Prod.fst he1
      have hp1 : p.1 = k := by rw [← he2]
      rw [← hp1] at hk
      exact (List.nodup_cons.mp h).1 hk
    · exact ih (List.nodup_cons.mp h).2 he1 he2

namespace Mempool

/-- The structural correspondence between the pending counter and the
transaction map that `TinyMempool` maintains: both maps are key-distinct,
every counter entry points at a transaction of that sender and hash at the
recorded index, and every transaction has its counter entry. -/
structure Inv (s : State) : Prop where
  txsNodup : keysNodup s.txs
  cnterNodup : keysNodup s.addressPendingCnter
  sound : ∀ e ∈ s.addressPendingCnter,
    ∃ tx, (e.2, tx) ∈ s.txs ∧ tx.sender = e.1.1 ∧ tx.hash = e.1.2
  complete : ∀ p ∈ s.txs,
    ((p.2.sender, p.2.hash), p.1) ∈ s.addressPendingCnter

theorem inv_init : Inv memInit := by
  refine ⟨?_, ?_, ?_, ?_⟩ <;> simp [memInit, keysNodup]

theorem inv_insert (cm : CryptoModel) (cfg : Cfg) (env : Env)
    (now idx : Nat) (sigChecked : Bool) (s s' : State) (tx : TxStub)
    (hfresh : kvLookup s.txs idx = none)
    (h : txInsert cm cfg env now idx sigChecked s tx = .ok s')
    (hinv : Inv s) : Inv s' := by
  unfold txInsert at h
  split_ifs at h with hcap hdup
  rcases hpc : txPreCheck cm cfg env tx sigChecked with e | u <;> rw [hpc] at h
  · cases h
  injection h with h
  subst h
  have hdup' : kvLookup s.addressPendingCnter (tx.sender, tx.hash) = none := by
    rcases ho : kvLookup s.addressPendingCnter (tx.sender, tx.hash) with _ | v
    · rfl
    · exact absurd (by simp [ho]) hdup
  have htx : kvSet s.txs idx tx = s.txs ++ [(idx, tx)] :=
    kvSet_eq_append tx hfresh
  have hcn : kvSet s.addressPendingCnter (tx.sender, tx.hash) idx =
      s.addressPendingCnter ++ [((tx.sender, tx.hash), idx)] :=
    kvSet_eq_append idx hdup'
  refine ⟨?_, ?_, ?_, ?_⟩
  · show keysNodup (kvSet s.txs idx tx)
    rw [htx]
    unfold keysNodup
    rw [List.map_append, List.nodup_append]
    refine ⟨hinv.txsNodup, by simp, ?_⟩
    intro a ha hb
    simp only [List.map_cons, List.map_nil, List.mem_singleton] at hb
    subst hb
    exact (kv_lookup_none_iff s.txs _).mp hfresh ha
  · show keysNodup (kvSet s.addressPendingCnter (tx.sender, tx.hash) idx)
    rw [hcn]
    unfold keysNodup
    rw [List.map_append, List.nodup_append]
    refine ⟨hinv.cnterNodup, by simp, ?_⟩
    intro a ha hb
    simp only [List.map_cons, List.map_nil, List.mem_singleton] at hb
    subst hb
    exact (kv_lookup_none_iff s.addressPendingCnter (tx.sender, tx.hash)).mp
      hdup' ha
  · intro e he
    rw [hcn] at he
    rcases List.mem_append.mp he with he | he
    · rcases hinv.sound e he with ⟨tx0, hm, hs1, hs2⟩
      exact ⟨tx0, by rw [htx]; exact List.mem_append_left _ hm, hs1, hs2⟩
    · rcases List.mem_singleton.mp he with rfl
      exact ⟨tx, by rw [htx]; exact List.mem_append_right _ (by simp),
        rfl, rfl⟩
  · intro p hp
    rw [htx] at hp
    rcases List.mem_append.mp hp with hp | hp
    · rw [hcn]
      exact List.mem_append_left _ (hinv.complete p hp)
    · rcases List.mem_singleton.mp hp with rfl
      rw [hcn]
      exact List.mem_append_right _ (by simp)

theorem inv_cleanup (s : State) (toDel : List TxStub) (hinv : Inv s) :
    Inv (txCleanup s toDel) := by
  unfold txCleanup
  induction toDel generalizing s with
  | nil => exact hinv
  | cons tx rest ih =>
    rw [List.foldl_cons]
    apply ih
    rcases ho : kvLookup s.addressPendingCnter (tx.sender, tx.hash)
      with _ | i
    · simpa [ho] using hinv
    simp only [ho]
    have hentry : ((tx.sender, tx.hash), i) ∈ s.addressPendingCnter :=
      kv_mem_of_lookup ho
    rcases hinv.sound _ hentry with ⟨tx0, htx0, hs0, hh0⟩
    refine ⟨?_, ?_, ?_, ?_⟩
    · exact keysNodup_kvErase i hinv.txsNodup
    · exact keysNodup_kvErase (tx.sender, tx.hash) hinv.cnterNodup
    · intro e he
      rcases (mem_kvErase_iff hinv.cnterNodup).mp he with ⟨hec, hek⟩
      rcases hinv.sound e hec with ⟨tx1, htx1, hs1, hh1⟩
      refine ⟨tx1, ?_, hs1, hh1⟩
      apply mem_kvErase_of_ne htx1
      intro hei
      apply hek
      have hei2 : e.2 = i := hei
      have : tx1 = tx0 := by
        rw [hei2] at htx1
        exact kv_pair_unique hinv.txsNodup htx1 htx0
      have h1 : e.1.1 = tx.sender := by rw [← hs1, this, hs0]
      have h2 : e.1.2 = tx.hash := by rw [← hh1, this, hh0]
      rw [← h1, ← h2]
    · intro p hp
      rcases (mem_kvErase_iff hinv.txsNodup).mp hp with ⟨hpt, hpi⟩
      apply mem_kvErase_of_ne (hinv.complete p hpt)
      intro hkey
      apply hpi
      have hkey2 : (p.2.sender, p.2.hash) = (tx.sender, tx.hash) := hkey
      have h1 : ((tx.sender, tx.hash), p.1) ∈ s.addressPendingCnter := by
        rw [← hkey2]
        exact hinv.complete p hpt
      exact kv_pair_unique hinv.cnterNodup h1 hentry

theorem keysNodup_foldl_kvErase (d : List (Nat × TxStub))
    (c : List ((Nat × Nat) × Nat)) (h : keysNodup c) :
    keysNodup (d.foldl (fun c p => kvErase c (p.2.sender, p.2.hash)) c) := by
  induction d generalizing c with
  | nil => exact h
  | cons q rest ih =>
    rw [List.foldl_cons]
    exact ih _ (keysNodup_kvErase _ h)

theorem mem_foldl_kvErase (d : List (Nat × TxStub))
    (c : List ((Nat × Nat) × Nat)) (h : keysNodup c) (e : (Nat × Nat) × Nat) :
    e ∈ d.foldl (fun c p => kvErase c (p.2.sender, p.2.hash)) c ↔
      e ∈ c ∧ ∀ p ∈ d, e.1 ≠ (p.2.sender, p.2.hash) := by
  induction d generalizing c with
  | nil => simp
  | cons q rest ih =>
    rw [List.foldl_cons, ih _ (keysNodup_kvErase _ h),
      mem_kvErase_iff h, List.forall_mem_cons]
    tauto

theorem inv_evict (s : State) (tsGuard : Nat) (hinv : Inv s) :
    Inv (txEvict s tsGuard) := by
  unfold txEvict
  dsimp only
  rcases hq : popLastKey
      (List.filter (fun e => decide (e.1 < tsGuard)) s.txLifetimeFields)
    with _ | q
  · exact ⟨hinv.txsNodup, hinv.cnterNodup, hinv.sound, hinv.complete⟩
  refine ⟨?_, ?_, ?_, ?_⟩
  · exact ((List.filter_sublist _).map Prod.fst).nodup hinv.txsNodup
  · exact keysNodup_foldl_kvErase _ _ hinv.cnterNodup
  · intro e he
    rcases (mem_foldl_kvErase _ _ hinv.cnterNodup e).mp he with ⟨hec, hall⟩
    rcases hinv.sound e hec with ⟨tx0, htx0, hs0, hh0⟩
    have hlt : e.2 < q.2 := by
      by_contra hge
      have hmem : (e.2, tx0) ∈ s.txs.filter (fun p => q.2 ≤ p.1) :=
        List.mem_filter.mpr ⟨htx0, by
          simp only [decide_eq_true_eq]
          exact Nat.le_of_not_lt hge⟩
      apply hall (e.2, tx0) hmem
      show e.1 = (tx0.sender, tx0.hash)
      rw [hs0, hh0]
    refine ⟨tx0, ?_, hs0, hh0⟩
    exact List.mem_filter.mpr ⟨htx0, by
      simp only [decide_eq_true_eq]
      exact hlt⟩
  · intro p hp
    rcases List.mem_filter.mp hp with ⟨hpt, hplt⟩
    simp only [decide_eq_true_eq] at hplt
    refine (mem_foldl_kvErase _ _ hinv.cnterNodup _).mpr
      ⟨hinv.complete p hpt, ?_⟩
    intro p' hp'
    rcases List.mem_filter.mp hp' with ⟨hpt', hge'⟩
    simp only [decide_eq_true_eq] at hge'
    intro hkeyeq
    have hk : ((p'.2.sender, p'.2.hash), p.1) ∈ s.addressPendingCnter := by
      rw [← hkeyeq]
      exact hinv.complete p hpt
    have h2 : p.1 = p'.1 :=
      kv_pair_unique hinv.cnterNodup hk (hinv.complete p' hpt')
    rw [h2] at hplt
    exact Nat.lt_irrefl _ (Nat.lt_of_lt_of_le hplt hge')

theorem kv_lookup_of_mem {κ α : Type} [DecidableEq κ] {l : List (κ × α)}
    {k : κ} {v : α} (hn : keysNodup l) (h : (k, v) ∈ l) :
    kvLookup l k = some v := by
  induction l with
  | nil => cases h
  | cons p t ih =>
    rcases List.mem_cons.mp h with he | he
    · have hp : p.1 = k := by rw [← he]
      rw [kvLookup, if_pos hp]
      rw [← he]
    · by_cases hp : p.1 = k
      · exfalso
        apply (List.nodup_cons.mp hn).1
        rw [hp]
        exact List.mem_map_of_mem Prod.fst he
      · rw [kvLookup, if_neg hp]
        exact ih (List.nodup_cons.mp hn).2 he

theorem kv_perm_cons_erase {κ α : Type} [DecidableEq κ] {l : List (κ × α)}
    {k : κ} {v : α} (h : kvLookup l k = some v) :
    l.Perm ((k, v) :: kvErase l k) := by
  induction l with
  | nil => cases h
  | cons p t ih =>
    by_cases hp : p.1 = k
    · rw [kvLookup, if_pos hp] at h
      injection h with h
      rw [kvErase, if_pos hp]
      have hkv : (k, v) = p := by rw [← hp, ← h]
      rw [← hkv]
    · rw [kvLookup, if_neg hp] at h
      rw [kvErase, if_neg hp]
      exact ((ih h).cons p).trans (List.Perm.swap _ _ _)

theorem corr_count_eq (t : List (Nat × TxStub)) :
    ∀ c : List ((Nat × Nat) × Nat), keysNodup t → keysNodup c →
    (∀ e ∈ c, ∃ tx, (e.2, tx) ∈ t ∧ tx.sender = e.1.1 ∧ tx.hash = e.1.2) →
    (∀ p ∈ t, ((p.2.sender, p.2.hash), p.1) ∈ c) →
    ∀ a, (c.filter (fun e => e.1.1 = a)).length =
      (t.filter (fun p => p.2.sender = a)).length := by
  induction t with
  | nil =>
    intro c _ _ hs _ a
    have hc : c = [] := by
      cases c with
      | nil => rfl
      | cons e rest =>
        rcases hs e (by simp) with ⟨tx, htx, _⟩
        cases htx
    rw [hc]
    rfl
  | cons p t ih =>
    intro c ht hc hs hcm a
    have hentry : ((p.2.sender, p.2.hash), p.1) ∈ c := hcm p (by simp)
    have htail := List.nodup_cons.mp ht
    have hlk : kvLookup c (p.2.sender, p.2.hash) = some p.1 :=
      kv_lookup_of_mem hc hentry
    have hperm := kv_perm_cons_erase hlk
    have hcnod : keysNodup (kvErase c (p.2.sender, p.2.hash)) :=
      keysNodup_kvErase _ hc
    have hs2 : ∀ e ∈ kvErase c (p.2.sender, p.2.hash),
        ∃ tx, (e.2, tx) ∈ t ∧ tx.sender = e.1.1 ∧ tx.hash = e.1.2 := by
      intro e he
      rcases (mem_kvErase_iff hc).mp he with ⟨hec, hek⟩
      rcases hs e hec with ⟨tx, htx, hs1, hh1⟩
      rcases List.mem_cons.mp htx with hh | hh
      · exfalso
        apply hek
        have h2 : tx = p.2 := congrArg Prod.snd hh
        show e.1 = (p.2.sender, p.2.hash)
        rw [← h2, hs1, hh1]
      · exact ⟨tx, hh, hs1, hh1⟩
    have hcm2 : ∀ q ∈ t, ((q.2.sender, q.2.hash), q.1) ∈
        kvErase c (p.2.sender, p.2.hash) := by
      intro q hq
      apply mem_kvErase_of_ne (hcm q (List.mem_cons_of_mem p hq))
      intro heq
      apply htail.1
      have heq2 : (q.2.sender, q.2.hash) = (p.2.sender, p.2.hash) := heq
      have h2 : ((p.2.sender, p.2.hash), q.1) ∈ c := by
        rw [← heq2]
        exact hcm q (List.mem_cons_of_mem p hq)
      have h3 : q.1 = p.1 := kv_pair_unique hc h2 hentry
      rw [← h3]
      exact List.mem_map_of_mem Prod.fst hq
    have hlen := ih (kvErase c (p.2.sender, p.2.hash)) htail.2 hcnod hs2
      hcm2 a
    have hfp : (c.filter (fun e => e.1.1 = a)).length =
        ((((p.2.sender, p.2.hash), p.1) ::
          kvErase c (p.2.sender, p.2.hash)).filter
            (fun e => e.1.1 = a)).length :=
      (hperm.filter _).length_eq
    rw [hfp]
    by_cases hpa : p.2.sender = a
    · rw [hpa] at hlen
      simp [List.filter_cons, hpa, hlen]
    · simp [List.filter_cons, hpa, hlen]

end Mempool

/-- C6 -- In every mempool state reachable by `tx_insert`, `tx_cleanup` and
lifetime-eviction steps, the per-sender pending count
(`tx_pending_cnt(Some(addr))`, the size of that sender's entry map in
`address_pending_cnter`) equals the number of transactions from that sender
in the transaction map. -/
theorem mempool_pending_count_inv (cm : Mempool.CryptoModel)
    (cfg : Mempool.Cfg) (env : Mempool.Env) (s : Mempool.State)
    (h : Mempool.Reach cm cfg env s) (a : Nat) :
    Mempool.txPendingCnt s (some a) =
      (s.txs.filter (fun p => p.2.sender = a)).length := by
  have hinv : Mempool.Inv s := by
    induction h with
    | init => exact Mempool.inv_init
    | step s1 s2 hr hstep ih =>
      cases hstep with
      | insert tx now idx sigChecked hfresh hok =>
        exact Mempool.inv_insert cm cfg env now idx sigChecked s1 s2 tx
          hfresh hok ih
      | cleanup toDel => exact Mempool.inv_cleanup s1 toDel ih
      | evict tsGuard => exact Mempool.inv_evict s1 tsGuard ih
  exact Mempool.corr_count_eq s.txs s.addressPendingCnter hinv.txsNodup
    hinv.cnterNodup hinv.sound hinv.complete a

/-- Witness for C6 at the freshly created mempool. -/
theorem mempool_pending_count_inv_witness :
    Mempool.Reach c5Cm c5Cfg c5Env Mempool.memInit ∧
    Mempool.txPendingCnt Mempool.memInit (some 1) =
      (Mempool.memInit.txs.filter (fun p => p.2.sender = 1)).length := by
  have hr : Mempool.Reach c5Cm c5Cfg c5Env Mempool.memInit :=
    Mempool.Reach.init
  exact ⟨hr, mempool_pending_count_inv c5Cm c5Cfg c5Env _ hr 1⟩

/-! ### Transaction codec (model/src/codec/transaction.rs)

The external `rlp` crate serializes field sequences; its wire format is
injective on the item tree, so the embedding works on RLP item trees
(`RItem`) instead of raw bytes: a scalar (`U256`/`u64`/`u8` appended as a
big-endian integer), a byte string, a 20-byte address, and a nested list.
`keccak256` over the serialized bytes enters as a parameter on the
(type-prefix, item-tree) pair that determines them. -/

inductive RItem where
  | nat (n : Nat) : RItem
  | bytes (bs : List Nat) : RItem
  | addr (a : Nat) : RItem
  | list (items : List RItem) : RItem

/-- The serialized form of an `UnverifiedTransaction`
(`rlp_bytes`): the optional type byte written in front of the RLP payload
for non-legacy transactions, and the payload item. -/
structure TxRaw where
  typeByte : Option Nat
  item : RItem

/-- `SignatureComponents`: the recovery id (`standard_v`) and the values of
the 32-byte big-endian `r` and `s` components. -/
structure SignatureComponents where
  standardV : Nat
  r : Nat
  s : Nat
deriving DecidableEq, Repr

/-- Modelled from the spec: EIP-155 replay protection,
`v = chain_id * 2 + 35 + recovery_id` (and `27 + recovery_id` without a
chain id).  `SignatureComponents::add_chain_replay_protection` is declared
in the model crate's transaction-type module, which is absent from this
snapshot; only its callers in codec/transaction.rs are present. -/
def SignatureComponents.addChainReplayProtection (sig : SignatureComponents)
    (chainId : Option Nat) : Nat :=
  sig.standardV + match chainId with
  | some id => 35 + 2 * id
  | none => 27

/-- Modelled from the spec: the chain id recovered from an EIP-155 `v`,
defined for `v ≥ 35`; the inverse of `add_chain_replay_protection`. -/
def SignatureComponents.extractChainId (v : Nat) : Option Nat :=
  if 35 ≤ v then some ((v - 35) / 2) else none

/-- Modelled from the spec: the recovery id recovered from a legacy `v`:
27/28 map to 0/1, an EIP-155 `v ≥ 35` reduces mod 2. -/
def SignatureComponents.extractStandardV (v : Nat) : Option Nat :=
  if v = 27 then some 0
  else if v = 28 then some 1
  else if 35 ≤ v then some ((v - 35) % 2)
  else none

/-- Modelled from the spec: `is_eth_sig` recognizes the 65-byte
`r ‖ s ‖ v` signature form with 32-byte `r` and `s`; this embedding carries
`r` and `s` as the values of such 32-byte components, so the test holds. -/
def SignatureComponents.isEthSig (_ : SignatureComponents) : Bool := true

/-- Big-endian 32-byte representation of a `U256` value (for the non-eth
signature branch, which appends the raw component bytes). -/
def beBytes32 (n : Nat) : List Nat :=
  (List.range 32).map fun i => n / 256 ^ (31 - i) % 256

/-- `Encodable for SignatureComponents` (codec/transaction.rs 21-31). -/
def SignatureComponents.rlpAppend (sig : SignatureComponents) : List RItem :=
  if sig.isEthSig then [.nat sig.standardV, .nat sig.r, .nat sig.s]
  else [.nat sig.standardV, .bytes (beBytes32 sig.r),
    .bytes (beBytes32 sig.s)]

/-- `AccessListItem`. -/
structure AccessListItem where
  address : Nat
  storageKeys : List Nat
deriving DecidableEq, Repr

/-- `LegacyTransaction`. -/
structure LegacyTransaction where
  nonce : Nat
  gasPrice : Nat
  gasLimit : Nat
  action : TxAction
  value : Nat
  data : List Nat
deriving DecidableEq, Repr

/-- `Eip2930Transaction`. -/
structure Eip2930Transaction where
  nonce : Nat
  gasPrice : Nat
  gasLimit : Nat
  action : TxAction
  value : Nat
  data : List Nat
  accessList : List AccessListItem
deriving DecidableEq, Repr

/-- `Eip1559Transaction` (its `gas_price` field is `max_fee_per_gas`). -/
structure Eip1559Transaction where
  nonce : Nat
  maxPriorityFeePerGas : Nat
  gasPrice : Nat
  gasLimit : Nat
  action : TxAction
  value : Nat
  data : List Nat
  accessList : List AccessListItem
deriving DecidableEq, Repr

/-- `UnsignedTransaction`. -/
inductive UnsignedTransaction where
  | legacy (tx : LegacyTransaction) : UnsignedTransaction
  | eip2930 (tx : Eip2930Transaction) : UnsignedTransaction
  | eip1559 (tx : Eip1559Transaction) : UnsignedTransaction
deriving DecidableEq, Repr

/-- Modelled from the spec: the transaction type byte, `0x01` for EIP-2930
and `0x02` for EIP-1559 (legacy transactions are untagged). -/
def UnsignedTransaction.asU8 : UnsignedTransaction → Nat
  | .legacy _ => 0
  | .eip2930 _ => 1
  | .eip1559 _ => 2

/-- `is_legacy`. -/
def UnsignedTransaction.isLegacy : UnsignedTransaction → Bool
  | .legacy _ => true
  | _ => false

/-- `UnverifiedTransaction`. -/
structure UnverifiedTransaction where
  unsigned : UnsignedTransaction
  signature : Option SignatureComponents
  chainId : Nat
  hash : Nat
deriving DecidableEq, Repr

/-- `SignedTransaction` (the model type: the unverified transaction plus
the recovered sender and public key). -/
structure SignedTransaction where
  transaction : UnverifiedTransaction
  sender : Nat
  public : Option Nat
deriving DecidableEq, Repr

/-- Modelled from the spec: `TransactionAction`'s canonical RLP — `Call`
carries the 20-byte address, `Create` the empty byte string. -/
def encodeAction : TxAction → RItem
  | .call a => .addr a
  | .create => .bytes []

def encodeAccessItem (al : AccessListItem) : RItem :=
  .list [.addr al.address, .list (al.storageKeys.map RItem.nat)]

/-- `LegacyTransaction::rlp_encode` (codec/transaction.rs 84-111): nine
items when a signature or chain id is present (`v` carries the EIP-155
protection, `r`/`s` truncated to 32 bytes and appended as `U256` values),
six otherwise. -/
def LegacyTransaction.rlpEncode (tx : LegacyTransaction)
    (chainId : Option Nat) (signature : Option SignatureComponents) :
    RItem :=
  let base := [RItem.nat tx.nonce, RItem.nat tx.gasPrice,
    RItem.nat tx.gasLimit, encodeAction tx.action, RItem.nat tx.value,
    RItem.bytes tx.data]
  match signature with
  | some sig =>
    .list (base ++ [.nat (sig.addChainReplayProtection chainId),
      .nat sig.r, .nat sig.s])
  | none =>
    match chainId with
    | some id => .list (base ++ [.nat id, .nat 0, .nat 0])
    | none => .list base

/-- `Eip2930Transaction::rlp_encode` (codec/transaction.rs 141-170). -/
def Eip2930Transaction.rlpEncode (tx : Eip2930Transaction)
    (chainId : Option Nat) (signature : Option SignatureComponents) :
    RItem :=
  let base := [RItem.nat (chainId.getD 0), RItem.nat tx.nonce,
    RItem.nat tx.gasPrice, RItem.nat tx.gasLimit, encodeAction tx.action,
    RItem.nat tx.value, RItem.bytes tx.data,
    RItem.list (tx.accessList.map encodeAccessItem)]
  match signature with
  | some sig => .list (base ++ sig.rlpAppend)
  | none => .list base

/-- `Eip1559Transaction::rlp_encode` (codec/transaction.rs 212-243). -/
def Eip1559Transaction.rlpEncode (tx : Eip1559Transaction)
    (chainId : Option Nat) (signature : Option SignatureComponents) :
    RItem :=
  let base := [RItem.nat (chainId.getD 0), RItem.nat tx.nonce,
    RItem.nat tx.maxPriorityFeePerGas, RItem.nat tx.gasPrice,
    RItem.nat tx.gasLimit, encodeAction tx.action, RItem.nat tx.value,
    RItem.bytes tx.data, RItem.list (tx.accessList.map encodeAccessItem)]
  match signature with
  | some sig => .list (base ++ sig.rlpAppend)
  | none => .list base

/-- `Encodable for UnverifiedTransaction::rlp_bytes` (codec/transaction.rs
303-314): the per-type payload, with the type byte written in front for
non-legacy transactions. -/
def UnverifiedTransaction.rlpBytes (utx : UnverifiedTransaction) : TxRaw :=
  let item := match utx.unsigned with
    | .legacy tx => tx.rlpEncode (some utx.chainId) utx.signature
    | .eip2930 tx => tx.rlpEncode (some utx.chainId) utx.signature
    | .eip1559 tx => tx.rlpEncode (some utx.chainId) utx.signature
  { typeByte := if utx.unsigned.isLegacy then none
      else some utx.unsigned.asU8,
    item := item }

def RItem.asList : RItem → Except String (List RItem)
  | .list items => .ok items
  | _ => .error "expected list"

def getAt (l : List RItem) (i : Nat) : Except String RItem :=
  match l.get? i with
  | some it => .ok it
  | none => .error "index out of range"

def expectNat : RItem → Except String Nat
  | .nat n => .ok n
  | _ => .error "expected integer"

def expectBytes : RItem → Except String (List Nat)
  | .bytes bs => .ok bs
  | _ => .error "expected bytes"

def expectAddr : RItem → Except String Nat
  | .addr a => .ok a
  | _ => .error "expected address"

/-- Modelled from the spec: decoding `TransactionAction` — a 20-byte string
is `Call`, the empty string is `Create`. -/
def decodeAction : RItem → Except String TxAction
  | .addr a => .ok (.call a)
  | .bytes [] => .ok .create
  | _ => .error "invalid action"

/-- Value of a big-endian byte string. -/
def bytesValue (bs : List Nat) : Nat :=
  bs.foldl (fun acc b => acc * 256 + b) 0

/-- `SignatureComponents::rlp_decode` (codec/transaction.rs 33-81): for a
legacy transaction the recovery id is extracted from the given `v`,
otherwise read at the offset; `v ≤ 1` selects the eth form whose `r`/`s`
decode as `U256` values into 32-byte components, the other form requires
exactly 32 raw bytes each. -/
def SignatureComponents.rlpDecode (l : List RItem) (offset : Nat)
    (legacyV : Option Nat) : Except String SignatureComponents := do
  let v ← match legacyV with
    | some n =>
      match SignatureComponents.extractStandardV n with
      | some v => pure v
      | none => Except.error "invalid legacy v in signature"
    | none => getAt l offset >>= expectNat
  if v ≤ 1 then do
    let r ← getAt l (offset + 1) >>= expectNat
    let s ← getAt l (offset + 2) >>= expectNat
    pure ⟨v, r, s⟩
  else do
    let rb ← getAt l (offset + 1) >>= expectBytes
    let sb ← getAt l (offset + 2) >>= expectBytes
    if rb.length ≠ 32 then Except.error "invalid r in signature"
    else if sb.length ≠ 32 then Except.error "invalid s in signature"
    else pure ⟨v, bytesValue rb, bytesValue sb⟩

/-- `keccak256` over the serialized transaction (the optional type byte
followed by the RLP payload bytes); external, determined by the pair. -/
structure TxHashModel where
  digestRaw : TxRaw → Nat

def mapME {α β : Type} (f : α → Except String β) :
    List α → Except String (List β)
  | [] => .ok []
  | x :: t => do
    let y ← f x
    let ys ← mapME f t
    pure (y :: ys)

def decodeAccessItem : RItem → Except String AccessListItem
  | .list [a, ks] => do
    let address ← expectAddr a
    let kl ← ks.asList
    let keys ← mapME expectNat kl
    pure ⟨address, keys⟩
  | .list _ => .error "Unknown access list length"
  | _ => .error "expected list"

def decodeAccessList (it : RItem) : Except String (List AccessListItem) := do
  let l ← it.asList
  mapME decodeAccessItem l

/-- `LegacyTransaction::rlp_decode` (codec/transaction.rs 113-137); the
`chainFallback` argument is the `**CHAIN_ID.load()` global used when the
`v` value carries no chain id. -/
def LegacyTransaction.rlpDecode (hmTx : TxHashModel) (chainFallback : Nat)
    (item : RItem) : Except String UnverifiedTransaction := do
  let l ← item.asList
  if l.length ≠ 9 then Except.error "RlpIncorrectListLen"
  else do
    let nonce ← getAt l 0 >>= expectNat
    let gasPrice ← getAt l 1 >>= expectNat
    let gasLimit ← getAt l 2 >>= expectNat
    let action ← getAt l 3 >>= decodeAction
    let value ← getAt l 4 >>= expectNat
    let data ← getAt l 5 >>= expectBytes
    let v ← getAt l 6 >>= expectNat
    let sig ← SignatureComponents.rlpDecode l 6 (some v)
    pure { unsigned :=
             UnsignedTransaction.legacy
               ⟨nonce, gasPrice, gasLimit, action, value, data⟩,
           signature := some sig,
           chainId :=
             (SignatureComponents.extractChainId v).getD chainFallback,
           hash := hmTx.digestRaw ⟨none, item⟩ }

/-- `Eip2930Transaction::rlp_decode` (codec/transaction.rs 172-209). -/
def Eip2930Transaction.rlpDecode (hmTx : TxHashModel) (item : RItem) :
    Except String UnverifiedTransaction := do
  let l ← item.asList
  if l.length ≠ 11 then Except.error "RlpIncorrectListLen"
  else do
    let id ← getAt l 0 >>= expectNat
    let nonce ← getAt l 1 >>= expectNat
    let gasPrice ← getAt l 2 >>= expectNat
    let gasLimit ← getAt l 3 >>= expectNat
    let action ← getAt l 4 >>= decodeAction
    let value ← getAt l 5 >>= expectNat
    let data ← getAt l 6 >>= expectBytes
    let accl ← getAt l 7 >>= decodeAccessList
    let sig ← SignatureComponents.rlpDecode l 8 none
    let unsig : UnsignedTransaction :=
      .eip2930 ⟨nonce, gasPrice, gasLimit, action, value, data, accl⟩
    pure { unsigned := unsig, signature := some sig, chainId := id,
           hash := hmTx.digestRaw ⟨some unsig.asU8, item⟩ }

/-- `Eip1559Transaction::rlp_decode` (codec/transaction.rs 245-283). -/
def Eip1559Transaction.rlpDecode (hmTx : TxHashModel) (item : RItem) :
    Except String UnverifiedTransaction := do
  let l ← item.asList
  if l.length ≠ 12 then Except.error "RlpIncorrectListLen"
  else do
    let id ← getAt l 0 >>= expectNat
    let nonce ← getAt l 1 >>= expectNat
    let maxPriority ← getAt l 2 >>= expectNat
    let gasPrice ← getAt l 3 >>= expectNat
    let gasLimit ← getAt l 4 >>= expectNat
    let action ← getAt l 5 >>= decodeAction
    let value ← getAt l 6 >>= expectNat
    let data ← getAt l 7 >>= expectBytes
    let accl ← getAt l 8 >>= decodeAccessList
    let sig ← SignatureComponents.rlpDecode l 9 none
    let unsig : UnsignedTransaction :=
      .eip1559 ⟨nonce, maxPriority, gasPrice, gasLimit, action, value,
        data, accl⟩
    pure { unsigned := unsig, signature := some sig, chainId := id,
           hash := hmTx.digestRaw ⟨some unsig.asU8, item⟩ }

/-- `Decodable for UnverifiedTransaction` (codec/transaction.rs 317-332):
the first serialized byte dispatches — a legacy RLP list starts with a byte
whose top bit is set, a typed transaction starts with its type byte `0x01`
or `0x02`, anything else is refused. -/
def UnverifiedTransaction.decode (hmTx : TxHashModel) (chainFallback : Nat)
    (raw : TxRaw) : Except String UnverifiedTransaction :=
  match raw.typeByte with
  | none => LegacyTransaction.rlpDecode hmTx chainFallback raw.item
  | some 1 => Eip2930Transaction.rlpDecode hmTx raw.item
  | some 2 => Eip1559Transaction.rlpDecode hmTx raw.item
  | some _ => .error "Invalid transaction header"

/-- The serialized form of a `SignedTransaction`: the transaction bytes
wrapped as a single RLP byte string (`Encodable for SignedTransaction`);
decoding unwraps with `r.data()`. -/
structure STxRaw where
  inner : TxRaw

def SignedTransaction.encodeRlp (stx : SignedTransaction) : STxRaw :=
  ⟨stx.transaction.rlpBytes⟩

/-- The external cryptography entering `Decodable for SignedTransaction`:
the protected signature hash (`signature_hash(true)`), secp256k1 public-key
recovery, and the public-key-to-address map. -/
structure RecoverModel where
  sigHash : UnverifiedTransaction → Nat
  recover : Nat → SignatureComponents → Except String Nat
  publicToAddress : Nat → Nat

/-- `Decodable for SignedTransaction` (codec/transaction.rs 340-362). -/
def SignedTransaction.decodeRlp (hmTx : TxHashModel) (rm : RecoverModel)
    (chainFallback : Nat) (raw : STxRaw) :
    Except String SignedTransaction := do
  let utx ← UnverifiedTransaction.decode hmTx chainFallback raw.inner
  let sig ← match utx.signature with
    | some s => pure s
    | none => Except.error "missing signature"
  let pub ← rm.recover (rm.sigHash utx) sig
  pure { transaction := utx, sender := rm.publicToAddress pub,
         public := some pub }

theorem exceptBind_ok {α β : Type} (a : α) (f : α → Except String β) :
    (Except.ok a >>= f) = f a := rfl

theorem exceptPure_eq {α : Type} (a : α) :
    (pure a : Except String α) = Except.ok a := rfl

theorem extractStandardV_protect (sv c : Nat) (h : sv ≤ 1) :
    SignatureComponents.extractStandardV (sv + (35 + 2 * c)) = some sv := by
  unfold SignatureComponents.extractStandardV
  rw [if_neg (by omega), if_neg (by omega), if_pos (by omega)]
  congr 1
  omega

theorem extractChainId_protect (sv c : Nat) (h : sv ≤ 1) :
    SignatureComponents.extractChainId (sv + (35 + 2 * c)) = some c := by
  unfold SignatureComponents.extractChainId
  rw [if_pos (by omega)]
  congr 1
  omega

theorem addChainReplayProtection_some (sig : SignatureComponents) (c : Nat) :
    sig.addChainReplayProtection (some c) = sig.standardV + (35 + 2 * c) :=
  rfl

theorem decodeAction_encode (a : TxAction) :
    decodeAction (encodeAction a) = .ok a := by
  cases a <;> rfl

theorem mapME_nat (keys : List Nat) :
    mapME expectNat (keys.map RItem.nat) = .ok keys := by
  induction keys with
  | nil => rfl
  | cons k t ih =>
    show (do
      let y ← expectNat (RItem.nat k)
      let ys ← mapME expectNat (t.map RItem.nat)
      pure (y :: ys) : Except String (List Nat)) = _
    rw [show expectNat (RItem.nat k) = Except.ok k from rfl, exceptBind_ok,
      ih, exceptBind_ok]
    rfl

theorem mapME_access (al : List AccessListItem) :
    mapME decodeAccessItem (al.map encodeAccessItem) = .ok al := by
  induction al with
  | nil => rfl
  | cons a t ih =>
    show (do
      let y ← decodeAccessItem (encodeAccessItem a)
      let ys ← mapME decodeAccessItem (t.map encodeAccessItem)
      pure (y :: ys) : Except String (List AccessListItem)) = _
    have h1 : decodeAccessItem (encodeAccessItem a) = .ok a := by
      show (do
        let address ← expectAddr (RItem.addr a.address)
        let kl ← (RItem.list (a.storageKeys.map RItem.nat)).asList
        let keys ← mapME expectNat kl
        pure (⟨address, keys⟩ : AccessListItem) :
          Except String AccessListItem) = _
      rw [show expectAddr (RItem.addr a.address) = Except.ok a.address
          from rfl, exceptBind_ok,
        show (RItem.list (a.storageKeys.map RItem.nat)).asList =
          Except.ok (a.storageKeys.map RItem.nat) from rfl, exceptBind_ok,
        mapME_nat, exceptBind_ok]
      rfl
    rw [h1, exceptBind_ok, ih, exceptBind_ok]
    rfl

theorem decodeAccessList_encode (al : List AccessListItem) :
    decodeAccessList (.list (al.map encodeAccessItem)) = .ok al := by
  show (do
    let l ← (RItem.list (al.map encodeAccessItem)).asList
    mapME decodeAccessItem l : Except String (List AccessListItem)) = _
  rw [show (RItem.list (al.map encodeAccessItem)).asList =
    Except.ok (al.map encodeAccessItem) from rfl, exceptBind_ok, mapME_access]

theorem sig_rlpDecode_legacy (l : List RItem) (sig : SignatureComponents)
    (v : Nat) (hv : sig.standardV ≤ 1)
    (hesv : SignatureComponents.extractStandardV v = some sig.standardV)
    (h7 : getAt l (6 + 1) = .ok (.nat sig.r))
    (h8 : getAt l (6 + 2) = .ok (.nat sig.s)) :
    SignatureComponents.rlpDecode l 6 (some v) = .ok sig := by
  simp only [SignatureComponents.rlpDecode, hesv, exceptPure_eq,
    exceptBind_ok]
  rw [if_pos hv, h7, exceptBind_ok,
    show expectNat (RItem.nat sig.r) = Except.ok sig.r from rfl,
    exceptBind_ok, h8, exceptBind_ok,
    show expectNat (RItem.nat sig.s) = Except.ok sig.s from rfl,
    exceptBind_ok]

theorem sig_rlpDecode_typed (l : List RItem) (sig : SignatureComponents)
    (off : Nat) (hv : sig.standardV ≤ 1)
    (h0 : getAt l off = .ok (.nat sig.standardV))
    (h1 : getAt l (off + 1) = .ok (.nat sig.r))
    (h2 : getAt l (off + 2) = .ok (.nat sig.s)) :
    SignatureComponents.rlpDecode l off none = .ok sig := by
  simp only [SignatureComponents.rlpDecode, h0, exceptBind_ok]
  rw [show expectNat (RItem.nat sig.standardV) =
      Except.ok sig.standardV from rfl, exceptBind_ok]
  rw [if_pos hv, h1, exceptBind_ok,
    show expectNat (RItem.nat sig.r) = Except.ok sig.r from rfl,
    exceptBind_ok, h2, exceptBind_ok,
    show expectNat (RItem.nat sig.s) = Except.ok sig.s from rfl,
    exceptBind_ok]
  rfl

set_option maxHeartbeats 2000000 in
/-- C8 helper: decoding the RLP encoding of an `UnverifiedTransaction`
carrying an eth signature and its canonical body hash yields it back. -/
theorem utx_decode_encode (hmTx : TxHashModel) (fb : Nat)
    (utx : UnverifiedTransaction) (sig : SignatureComponents)
    (hsig : utx.signature = some sig) (hv : sig.standardV ≤ 1)
    (hhash : utx.hash = hmTx.digestRaw utx.rlpBytes) :
    UnverifiedTransaction.decode hmTx fb utx.rlpBytes = .ok utx := by
  obtain ⟨unsigned, signature, chainId, hash⟩ := utx
  simp only at hsig hhash
  subst hsig
  cases unsigned with
  | legacy tx =>
    have hesv : SignatureComponents.extractStandardV
        (sig.addChainReplayProtection (some chainId)) =
        some sig.standardV := by
      rw [addChainReplayProtection_some]
      exact extractStandardV_protect _ _ hv
    have heci : SignatureComponents.extractChainId
        (sig.addChainReplayProtection (some chainId)) = some chainId := by
      rw [addChainReplayProtection_some]
      exact extractChainId_protect _ _ hv
    show LegacyTransaction.rlpDecode hmTx fb (RItem.list
      [RItem.nat tx.nonce, RItem.nat tx.gasPrice, RItem.nat tx.gasLimit,
        encodeAction tx.action, RItem.nat tx.value, RItem.bytes tx.data,
        RItem.nat (sig.addChainReplayProtection (some chainId)),
        RItem.nat sig.r, RItem.nat sig.s]) = _
    unfold LegacyTransaction.rlpDecode
    simp only [RItem.asList, exceptBind_ok]
    rw [if_neg (by simp)]
    rw [show (getAt
        [RItem.nat tx.nonce, RItem.nat tx.gasPrice, RItem.nat tx.gasLimit,
        encodeAction tx.action, RItem.nat tx.value, RItem.bytes tx.data,
        RItem.nat (sig.addChainReplayProtection (some chainId)),
        RItem.nat sig.r, RItem.nat sig.s] 0 >>= expectNat) = Except.ok (tx.nonce) from rfl,
      exceptBind_ok]
    rw [show (getAt
        [RItem.nat tx.nonce, RItem.nat tx.gasPrice, RItem.nat tx.gasLimit,
        encodeAction tx.action, RItem.nat tx.value, RItem.bytes tx.data,
        RItem.nat (sig.addChainReplayProtection (some chainId)),
        RItem.nat sig.r, RItem.nat sig.s] 1 >>= expectNat) = Except.ok (tx.gasPrice) from rfl,
      exceptBind_ok]
    rw [show (getAt
        [RItem.nat tx.nonce, RItem.nat tx.gasPrice, RItem.nat tx.gasLimit,
        encodeAction tx.action, RItem.nat tx.value, RItem.bytes tx.data,
        RItem.nat (sig.addChainReplayProtection (some chainId)),
        RItem.nat sig.r, RItem.nat sig.s] 2 >>= expectNat) = Except.ok (tx.gasLimit) from rfl,
      exceptBind_ok]
    rw [show getAt
        [RItem.nat tx.nonce, RItem.nat tx.gasPrice, RItem.nat tx.gasLimit,
        encodeAction tx.action, RItem.nat tx.value, RItem.bytes tx.data,
        RItem.nat (sig.addChainReplayProtection (some chainId)),
        RItem.nat sig.r, RItem.nat sig.s] 3 = Except.ok (encodeAction tx.action) from rfl,
      exceptBind_ok, decodeAction_encode, exceptBind_ok]
    rw [show (getAt
        [RItem.nat tx.nonce, RItem.nat tx.gasPrice, RItem.nat tx.gasLimit,
        encodeAction tx.action, RItem.nat tx.value, RItem.bytes tx.data,
        RItem.nat (sig.addChainReplayProtection (some chainId)),
        RItem.nat sig.r, RItem.nat sig.s] 4 >>= expectNat) = Except.ok (tx.value) from rfl,
      exceptBind_ok]
    rw [show (getAt
        [RItem.nat tx.nonce, RItem.nat tx.gasPrice, RItem.nat tx.gasLimit,
        encodeAction tx.action, RItem.nat tx.value, RItem.bytes tx.data,
        RItem.nat (sig.addChainReplayProtection (some chainId)),
        RItem.nat sig.r, RItem.nat sig.s] 5 >>= expectBytes) = Except.ok (tx.data) from rfl,
      exceptBind_ok]
    rw [show (getAt
        [RItem.nat tx.nonce, RItem.nat tx.gasPrice, RItem.nat tx.gasLimit,
        encodeAction tx.action, RItem.nat tx.value, RItem.bytes tx.data,
        RItem.nat (sig.addChainReplayProtection (some chainId)),
        RItem.nat sig.r, RItem.nat sig.s] 6 >>= expectNat) = Except.ok (sig.addChainReplayProtection (some chainId)) from rfl,
      exceptBind_ok]
    rw [sig_rlpDecode_legacy
      [RItem.nat tx.nonce, RItem.nat tx.gasPrice, RItem.nat tx.gasLimit,
        encodeAction tx.action, RItem.nat tx.value, RItem.bytes tx.data,
        RItem.nat (sig.addChainReplayProtection (some chainId)),
        RItem.nat sig.r, RItem.nat sig.s]
      sig (sig.addChainReplayProtection (some chainId)) hv hesv rfl rfl,
      exceptBind_ok, heci, hhash]
    rfl
  | eip2930 tx =>
    show Eip2930Transaction.rlpDecode hmTx (RItem.list
      [RItem.nat chainId, RItem.nat tx.nonce, RItem.nat tx.gasPrice,
        RItem.nat tx.gasLimit, encodeAction tx.action, RItem.nat tx.value,
        RItem.bytes tx.data,
        RItem.list (List.map encodeAccessItem tx.accessList),
        RItem.nat sig.standardV, RItem.nat sig.r, RItem.nat sig.s]) = _
    unfold Eip2930Transaction.rlpDecode
    simp only [RItem.asList, exceptBind_ok]
    rw [if_neg (by simp)]
    rw [show (getAt
        [RItem.nat chainId, RItem.nat tx.nonce, RItem.nat tx.gasPrice,
        RItem.nat tx.gasLimit, encodeAction tx.action, RItem.nat tx.value,
        RItem.bytes tx.data,
        RItem.list (List.map encodeAccessItem tx.accessList),
        RItem.nat sig.standardV, RItem.nat sig.r, RItem.nat sig.s] 0 >>= expectNat) = Except.ok (chainId) from rfl,
      exceptBind_ok]
    rw [show (getAt
        [RItem.nat chainId, RItem.nat tx.nonce, RItem.nat tx.gasPrice,
        RItem.nat tx.gasLimit, encodeAction tx.action, RItem.nat tx.value,
        RItem.bytes tx.data,
        RItem.list (List.map encodeAccessItem tx.accessList),
        RItem.nat sig.standardV, RItem.nat sig.r, RItem.nat sig.s] 1 >>= expectNat) = Except.ok (tx.nonce) from rfl,
      exceptBind_ok]
    rw [show (getAt
        [RItem.nat chainId, RItem.nat tx.nonce, RItem.nat tx.gasPrice,
        RItem.nat tx.gasLimit, encodeAction tx.action, RItem.nat tx.value,
        RItem.bytes tx.data,
        RItem.list (List.map encodeAccessItem tx.accessList),
        RItem.nat sig.standardV, RItem.nat sig.r, RItem.nat sig.s] 2 >>= expectNat) = Except.ok (tx.gasPrice) from rfl,
      exceptBind_ok]
    rw [show (getAt
        [RItem.nat chainId, RItem.nat tx.nonce, RItem.nat tx.gasPrice,
        RItem.nat tx.gasLimit, encodeAction tx.action, RItem.nat tx.value,
        RItem.bytes tx.data,
        RItem.list (List.map encodeAccessItem tx.accessList),
        RItem.nat sig.standardV, RItem.nat sig.r, RItem.nat sig.s] 3 >>= expectNat) = Except.ok (tx.gasLimit) from rfl,
      exceptBind_ok]
    rw [show getAt
        [RItem.nat chainId, RItem.nat tx.nonce, RItem.nat tx.gasPrice,
        RItem.nat tx.gasLimit, encodeAction tx.action, RItem.nat tx.value,
        RItem.bytes tx.data,
        RItem.list (List.map encodeAccessItem tx.accessList),
        RItem.nat sig.standardV, RItem.nat sig.r, RItem.nat sig.s] 4 = Except.ok (encodeAction tx.action) from rfl,
      exceptBind_ok, decodeAction_encode, exceptBind_ok]
    rw [show (getAt
        [RItem.nat chainId, RItem.nat tx.nonce, RItem.nat tx.gasPrice,
        RItem.nat tx.gasLimit, encodeAction tx.action, RItem.nat tx.value,
        RItem.bytes tx.data,
        RItem.list (List.map encodeAccessItem tx.accessList),
        RItem.nat sig.standardV, RItem.nat sig.r, RItem.nat sig.s] 5 >>= expectNat) = Except.ok (tx.value) from rfl,
      exceptBind_ok]
    rw [show (getAt
        [RItem.nat chainId, RItem.nat tx.nonce, RItem.nat tx.gasPrice,
        RItem.nat tx.gasLimit, encodeAction tx.action, RItem.nat tx.value,
        RItem.bytes tx.data,
        RItem.list (List.map encodeAccessItem tx.accessList),
        RItem.nat sig.standardV, RItem.nat sig.r, RItem.nat sig.s] 6 >>= expectBytes) = Except.ok (tx.data) from rfl,
      exceptBind_ok]
    rw [show getAt
        [RItem.nat chainId, RItem.nat tx.nonce, RItem.nat tx.gasPrice,
        RItem.nat tx.gasLimit, encodeAction tx.action, RItem.nat tx.value,
        RItem.bytes tx.data,
        RItem.list (List.map encodeAccessItem tx.accessList),
        RItem.nat sig.standardV, RItem.nat sig.r, RItem.nat sig.s] 7 = Except.ok
        (RItem.list (List.map encodeAccessItem tx.accessList)) from rfl,
      exceptBind_ok, decodeAccessList_encode, exceptBind_ok]
    rw [sig_rlpDecode_typed
      [RItem.nat chainId, RItem.nat tx.nonce, RItem.nat tx.gasPrice,
        RItem.nat tx.gasLimit, encodeAction tx.action, RItem.nat tx.value,
        RItem.bytes tx.data,
        RItem.list (List.map encodeAccessItem tx.accessList),
        RItem.nat sig.standardV, RItem.nat sig.r, RItem.nat sig.s]
      sig 8 hv rfl rfl rfl, exceptBind_ok]
    rw [hhash]
    rfl
  | eip1559 tx =>
    show Eip1559Transaction.rlpDecode hmTx (RItem.list
      [RItem.nat chainId, RItem.nat tx.nonce,
        RItem.nat tx.maxPriorityFeePerGas, RItem.nat tx.gasPrice,
        RItem.nat tx.gasLimit, encodeAction tx.action, RItem.nat tx.value,
        RItem.bytes tx.data,
        RItem.list (List.map encodeAccessItem tx.accessList),
        RItem.nat sig.standardV, RItem.nat sig.r, RItem.nat sig.s]) = _
    unfold Eip1559Transaction.rlpDecode
    simp only [RItem.asList, exceptBind_ok]
    rw [if_neg (by simp)]
    rw [show (getAt
        [RItem.nat chainId, RItem.nat tx.nonce,
        RItem.nat tx.maxPriorityFeePerGas, RItem.nat tx.gasPrice,
        RItem.nat tx.gasLimit, encodeAction tx.action, RItem.nat tx.value,
        RItem.bytes tx.data,
        RItem.list (List.map encodeAccessItem tx.accessList),
        RItem.nat sig.standardV, RItem.nat sig.r, RItem.nat sig.s] 0 >>= expectNat) = Except.ok (chainId) from rfl,
      exceptBind_ok]
    rw [show (getAt
        [RItem.nat chainId, RItem.nat tx.nonce,
        RItem.nat tx.maxPriorityFeePerGas, RItem.nat tx.gasPrice,
        RItem.nat tx.gasLimit, encodeAction tx.action, RItem.nat tx.value,
        RItem.bytes tx.data,
        RItem.list (List.map encodeAccessItem tx.accessList),
        RItem.nat sig.standardV, RItem.nat sig.r, RItem.nat sig.s] 1 >>= expectNat) = Except.ok (tx.nonce) from rfl,
      exceptBind_ok]
    rw [show (getAt
        [RItem.nat chainId, RItem.nat tx.nonce,
        RItem.nat tx.maxPriorityFeePerGas, RItem.nat tx.gasPrice,
        RItem.nat tx.gasLimit, encodeAction tx.action, RItem.nat tx.value,
        RItem.bytes tx.data,
        RItem.list (List.map encodeAccessItem tx.accessList),
        RItem.nat sig.standardV, RItem.nat sig.r, RItem.nat sig.s] 2 >>= expectNat) = Except.ok (tx.maxPriorityFeePerGas) from rfl,
      exceptBind_ok]
    rw [show (getAt
        [RItem.nat chainId, RItem.nat tx.nonce,
        RItem.nat tx.maxPriorityFeePerGas, RItem.nat tx.gasPrice,
        RItem.nat tx.gasLimit, encodeAction tx.action, RItem.nat tx.value,
        RItem.bytes tx.data,
        RItem.list (List.map encodeAccessItem tx.accessList),
        RItem.nat sig.standardV, RItem.nat sig.r, RItem.nat sig.s] 3 >>= expectNat) = Except.ok (tx.gasPrice) from rfl,
      exceptBind_ok]
    rw [show (getAt
        [RItem.nat chainId, RItem.nat tx.nonce,
        RItem.nat tx.maxPriorityFeePerGas, RItem.nat tx.gasPrice,
        RItem.nat tx.gasLimit, encodeAction tx.action, RItem.nat tx.value,
        RItem.bytes tx.data,
        RItem.list (List.map encodeAccessItem tx.accessList),
        RItem.nat sig.standardV, RItem.nat sig.r, RItem.nat sig.s] 4 >>= expectNat) = Except.ok (tx.gasLimit) from rfl,
      exceptBind_ok]
    rw [show getAt
        [RItem.nat chainId, RItem.nat tx.nonce,
        RItem.nat tx.maxPriorityFeePerGas, RItem.nat tx.gasPrice,
        RItem.nat tx.gasLimit, encodeAction tx.action, RItem.nat tx.value,
        RItem.bytes tx.data,
        RItem.list (List.map encodeAccessItem tx.accessList),
        RItem.nat sig.standardV, RItem.nat sig.r, RItem.nat sig.s] 5 = Except.ok (encodeAction tx.action) from rfl,
      exceptBind_ok, decodeAction_encode, exceptBind_ok]
    rw [show (getAt
        [RItem.nat chainId, RItem.nat tx.nonce,
        RItem.nat tx.maxPriorityFeePerGas, RItem.nat tx.gasPrice,
        RItem.nat tx.gasLimit, encodeAction tx.action, RItem.nat tx.value,
        RItem.bytes tx.data,
        RItem.list (List.map encodeAccessItem tx.accessList),
        RItem.nat sig.standardV, RItem.nat sig.r, RItem.nat sig.s] 6 >>= expectNat) = Except.ok (tx.value) from rfl,
      exceptBind_ok]
    rw [show (getAt
        [RItem.nat chainId, RItem.nat tx.nonce,
        RItem.nat tx.maxPriorityFeePerGas, RItem.nat tx.gasPrice,
        RItem.nat tx.gasLimit, encodeAction tx.action, RItem.nat tx.value,
        RItem.bytes tx.data,
        RItem.list (List.map encodeAccessItem tx.accessList),
        RItem.nat sig.standardV, RItem.nat sig.r, RItem.nat sig.s] 7 >>= expectBytes) = Except.ok (tx.data) from rfl,
      exceptBind_ok]
    rw [show getAt
        [RItem.nat chainId, RItem.nat tx.nonce,
        RItem.nat tx.maxPriorityFeePerGas, RItem.nat tx.gasPrice,
        RItem.nat tx.gasLimit, encodeAction tx.action, RItem.nat tx.value,
        RItem.bytes tx.data,
        RItem.list (List.map encodeAccessItem tx.accessList),
        RItem.nat sig.standardV, RItem.nat sig.r, RItem.nat sig.s] 8 = Except.ok
        (RItem.list (List.map encodeAccessItem tx.accessList)) from rfl,
      exceptBind_ok, decodeAccessList_encode, exceptBind_ok]
    rw [sig_rlpDecode_typed
      [RItem.nat chainId, RItem.nat tx.nonce,
        RItem.nat tx.maxPriorityFeePerGas, RItem.nat tx.gasPrice,
        RItem.nat tx.gasLimit, encodeAction tx.action, RItem.nat tx.value,
        RItem.bytes tx.data,
        RItem.list (List.map encodeAccessItem tx.accessList),
        RItem.nat sig.standardV, RItem.nat sig.r, RItem.nat sig.s]
      sig 9 hv rfl rfl rfl, exceptBind_ok]
    rw [hhash]
    rfl

/-- C8 -- For every signed transaction of any of the three types carrying a
valid signature (an eth signature with recovery id ≤ 1, the canonical body
hash, and a sender/public key consistent with secp256k1 recovery on the
protected signature hash), decoding the RLP encoding yields the transaction
back: the same unsigned body, signature components, chain id, body hash and
recovered sender. -/
theorem signed_tx_roundtrip (hmTx : TxHashModel) (rm : RecoverModel)
    (fb : Nat) (stx : SignedTransaction) (sig : SignatureComponents)
    (pub : Nat)
    (hsig : stx.transaction.signature = some sig)
    (hv : sig.standardV ≤ 1)
    (hhash : stx.transaction.hash = hmTx.digestRaw stx.transaction.rlpBytes)
    (hrec : rm.recover (rm.sigHash stx.transaction) sig = .ok pub)
    (hpub : stx.public = some pub)
    (hsender : stx.sender = rm.publicToAddress pub) :
    SignedTransaction.decodeRlp hmTx rm fb stx.encodeRlp = .ok stx := by
  obtain ⟨utx, sender, public⟩ := stx
  simp only at hsig hhash hrec hpub hsender
  subst hpub
  subst hsender
  simp only [SignedTransaction.decodeRlp, SignedTransaction.encodeRlp]
  rw [utx_decode_encode hmTx fb utx sig hsig hv hhash, exceptBind_ok]
  rw [hsig]
  simp only [exceptPure_eq, exceptBind_ok]
  rw [hrec, exceptBind_ok]

def c8HashModel : TxHashModel := ⟨fun _ => 99⟩

def c8Recover : RecoverModel := ⟨fun _ => 5, fun _ _ => .ok 7, fun _ => 3⟩

def c8Sig : SignatureComponents := ⟨1, 10, 20⟩

def c8Utx : UnverifiedTransaction :=
  { unsigned := .legacy ⟨0, 1, 21000, .call 2, 0, []⟩,
    signature := some c8Sig, chainId := 4, hash := 99 }

def c8Stx : SignedTransaction := ⟨c8Utx, 3, some 7⟩

/-- Witness for C8 at a concrete legacy transaction. -/
theorem signed_tx_roundtrip_witness :
    c8Utx.signature = some c8Sig ∧ c8Sig.standardV ≤ 1 ∧
    SignedTransaction.decodeRlp c8HashModel c8Recover 0
      (SignedTransaction.encodeRlp c8Stx) = .ok c8Stx := by
  refine ⟨rfl, by decide, ?_⟩
  exact signed_tx_roundtrip c8HashModel c8Recover 0 c8Stx c8Sig 7 rfl
    (by decide) rfl rfl rfl rfl
